import Mathlib

/-!
# BoloSign field compositing: coordinate conversion and aspect fitting

A shallow embedding of

* `Frontend/src/utils/coordinateConverter.js` (pixel/point conversion),
* `Frontend/src/App.jsx` (`handleSignPDF`, the editor's pixel-to-point mapping),
* `Backend/server.js` (`embedImageWithAspectRatio` and the field loop of
  `POST /api/sign-pdf`).

Numbers come in two models.

* `JSNum` is exact arithmetic: a finite number is an exact rational, and the
  three special values `Infinity`, `-Infinity` and `NaN` are kept so that
  division by zero behaves as it does in JavaScript rather than as in a field
  with `x / 0 = 0`. Rounding, overflow, underflow and the sign of zero are
  left out. The loop and the statements about what the formulas compute in
  exact arithmetic live here.
* `F64` is IEEE 754 binary64 with round-to-nearest-even, signed zeros,
  subnormals and overflow. The arithmetic functions are embedded a second
  time on it (namespace `F64`), and what the code really returns on doubles
  is evaluated there.

The PDF library is not part of the repository. Its calls are parameters: the
embed calls of `PDFDocument` and the drawing methods of `PageMethods` may each
return or throw.
-/

namespace BoloSign

/-! ## JavaScript numbers -/

/-- A JavaScript number: an exact rational or one of the IEEE special values. -/
inductive JSNum where
  | fin (q : ℚ)
  | posInf
  | negInf
  | nan
  deriving DecidableEq, Repr

namespace JSNum

/-- Unary minus. -/
def neg : JSNum → JSNum
  | fin a => fin (-a)
  | posInf => negInf
  | negInf => posInf
  | nan => nan

/-- The operator `+`. -/
def add : JSNum → JSNum → JSNum
  | fin a, fin b => fin (a + b)
  | nan, _ => nan
  | _, nan => nan
  | posInf, negInf => nan
  | negInf, posInf => nan
  | posInf, _ => posInf
  | negInf, _ => negInf
  | fin _, posInf => posInf
  | fin _, negInf => negInf

/-- The operator `-`. -/
def sub (a b : JSNum) : JSNum := add a (neg b)

/-- The value of `±Infinity * q` or `±Infinity / q` for a finite non-zero sign
carrier `q`; `pos` tells the sign of the infinite operand. -/
def infTimesSign (pos : Bool) (q : ℚ) : JSNum :=
  if q = 0 then nan
  else if (0 < q) = pos then posInf else negInf

/-- The operator `*`. -/
def mul : JSNum → JSNum → JSNum
  | fin a, fin b => fin (a * b)
  | nan, _ => nan
  | _, nan => nan
  | posInf, posInf => posInf
  | negInf, negInf => posInf
  | posInf, negInf => negInf
  | negInf, posInf => negInf
  | posInf, fin b => infTimesSign true b
  | negInf, fin b => infTimesSign false b
  | fin a, posInf => infTimesSign true a
  | fin a, negInf => infTimesSign false a

/-- The operator `/`. A finite number divided by zero is `±Infinity` by the
sign of the dividend, and `0 / 0` is `NaN`. -/
def div : JSNum → JSNum → JSNum
  | fin a, fin b =>
      if b = 0 then
        (if a = 0 then nan else if 0 < a then posInf else negInf)
      else fin (a / b)
  | nan, _ => nan
  | _, nan => nan
  | fin _, posInf => fin 0
  | fin _, negInf => fin 0
  | posInf, fin b => if 0 ≤ b then posInf else negInf
  | negInf, fin b => if 0 ≤ b then negInf else posInf
  | posInf, posInf => nan
  | posInf, negInf => nan
  | negInf, posInf => nan
  | negInf, negInf => nan

/-- The comparison `a > b`; false whenever an operand is `NaN`. -/
def gt : JSNum → JSNum → Bool
  | fin a, fin b => decide (b < a)
  | nan, _ => false
  | _, nan => false
  | posInf, posInf => false
  | posInf, _ => true
  | negInf, _ => false
  | fin _, posInf => false
  | fin _, negInf => true

/-- The function `Math.min` on two arguments. -/
def min : JSNum → JSNum → JSNum
  | fin a, fin b => if a ≤ b then fin a else fin b
  | nan, _ => nan
  | _, nan => nan
  | negInf, _ => negInf
  | _, negInf => negInf
  | posInf, b => b
  | a, posInf => a

/-- Truthiness of a number: everything except `0` and `NaN`. -/
def truthy : JSNum → Bool
  | fin q => decide (q ≠ 0)
  | nan => false
  | _ => true

instance : Add JSNum := ⟨add⟩
instance : Sub JSNum := ⟨sub⟩
instance : Mul JSNum := ⟨mul⟩
instance : Div JSNum := ⟨div⟩
instance : Neg JSNum := ⟨neg⟩
instance (n : Nat) : OfNat JSNum n := ⟨fin n⟩

end JSNum

open JSNum

/-! ## `coordinateConverter.js` -/

/-- The constant `PDF_DPI`. -/
def PDF_DPI : JSNum := 72

/-- Convert CSS pixels to PDF points: `(pixels / scale) * (PDF_DPI / 96)`. -/
def pixelsToPoints (pixels scale : JSNum) : JSNum :=
  (pixels / scale) * (PDF_DPI / 96)

/-- Convert PDF points to CSS pixels: `points * (96 / PDF_DPI) * scale`. -/
def pointsToPixels (points scale : JSNum) : JSNum :=
  points * (96 / PDF_DPI) * scale

/-- A pair `{ x, y }`. -/
structure Coords where
  x : JSNum
  y : JSNum
  deriving DecidableEq, Repr

/-- Browser coordinates (top-left origin) to PDF coordinates. The parameter
`pdfHeight` is accepted and not used, as in the source. -/
def browserToPdfCoords (x y _pdfHeight containerHeight scale : JSNum) : Coords :=
  let xPoints := pixelsToPoints x scale
  let yPixels := containerHeight - y
  let yPoints := pixelsToPoints yPixels scale
  { x := xPoints, y := yPoints }

/-- PDF coordinates to browser coordinates (top-left origin). The parameter
`pdfHeight` is accepted and not used, as in the source. -/
def pdfToBrowserCoords (x y _pdfHeight containerHeight scale : JSNum) : Coords :=
  let xPixels := pointsToPixels x scale
  let yPixels := pointsToPixels y scale
  let yBrowser := containerHeight - yPixels
  { x := xPixels, y := yBrowser }

/-! ## Fields and `handleSignPDF` (`App.jsx`) -/

/-- The JSON values a field's `value` can hold. -/
inductive JSValue where
  | undefined
  | null
  | bool (b : Bool)
  | number (n : JSNum)
  | string (s : String)
  deriving DecidableEq, Repr

/-- JavaScript truthiness, as tested by `if (field.value)`. -/
def JSValue.truthy : JSValue → Bool
  | .undefined => false
  | .null => false
  | .bool b => b
  | .number n => n.truthy
  | .string s => decide (s ≠ "")

/-- A field as held by the editor and as posted to the server. -/
structure Field where
  id : String
  type : String
  x : JSNum
  y : JSNum
  width : JSNum
  height : JSNum
  value : JSValue
  page : JSNum
  deriving DecidableEq, Repr

/-- The constant `pointsPerPixel = 72 / 96` of `handleSignPDF`. -/
def pointsPerPixel : JSNum := (72 : JSNum) / 96

/-- The array `fieldData` built by `handleSignPDF`: every editor field with its
position and size multiplied by `pointsPerPixel`. -/
def fieldData (fields : List Field) : List Field :=
  fields.map fun field =>
    { id := field.id
      type := field.type
      x := field.x * pointsPerPixel
      y := field.y * pointsPerPixel
      width := field.width * pointsPerPixel
      height := field.height * pointsPerPixel
      value := field.value
      page := field.page }

/-! ## `server.js` -/

/-- Raw bytes of a buffer. -/
abbrev Bytes := List Nat

/-- An embedded image of the PDF library, carrying its intrinsic size. -/
structure PDFImage where
  width : JSNum
  height : JSNum
  deriving DecidableEq, Repr

/-- Width and height, as returned by `image.scale` and `page.getSize`. -/
structure Dims where
  width : JSNum
  height : JSNum
  deriving DecidableEq, Repr

/-- The library method `image.scale(factor)`. -/
def PDFImage.scale (image : PDFImage) (factor : JSNum) : Dims :=
  { width := image.width * factor, height := image.height * factor }

/-- The part of the PDF library's document object that the server calls to
embed an image; either call may throw. -/
structure PDFDocument where
  embedPng : Bytes → Except String PDFImage
  embedJpg : Bytes → Except String PDFImage

/-- The object returned by `embedImageWithAspectRatio`. -/
structure ImageData where
  image : PDFImage
  x : JSNum
  y : JSNum
  width : JSNum
  height : JSNum
  deriving DecidableEq, Repr

/-- Embed an image and fit it into the box `(x, y, width, height)` keeping its
aspect ratio (`server.js`, lines 81-114). -/
def embedImageWithAspectRatio (pdfDoc : PDFDocument) (imageBytes : Bytes)
    (x y width height : JSNum) (imageType : String) : Except String ImageData := do
  let image ← if imageType = "png" then pdfDoc.embedPng imageBytes
              else pdfDoc.embedJpg imageBytes
  let imageDims := image.scale 1
  let imageAspectRatio := imageDims.width / imageDims.height
  let boxAspectRatio := width / height
  if JSNum.gt imageAspectRatio boxAspectRatio then
    -- Image is wider - fit to width
    let offsetX : JSNum := 0
    let finalWidth := width
    let finalHeight := width / imageAspectRatio
    let offsetY := (height - finalHeight) / 2
    pure { image := image, x := x + offsetX, y := y + offsetY,
           width := finalWidth, height := finalHeight }
  else
    -- Image is taller - fit to height
    let offsetY : JSNum := 0
    let finalHeight := height
    let finalWidth := height * imageAspectRatio
    let offsetX := (width - finalWidth) / 2
    pure { image := image, x := x + offsetX, y := y + offsetY,
           width := finalWidth, height := finalHeight }

/-- The value of `rgb(r, g, b)`. -/
structure Color where
  r : JSNum
  g : JSNum
  b : JSNum
  deriving DecidableEq, Repr

/-- The library function `rgb`. -/
def rgb (r g b : JSNum) : Color := { r := r, g := g, b := b }

/-- A drawing call issued on a page, with the arguments passed by the server. -/
inductive DrawOp where
  | drawText (text : JSValue) (x y size : JSNum) (color : Color)
  | drawImage (image : PDFImage) (x y width height : JSNum)
  | drawCircle (x y size : JSNum) (color : Color)
  deriving DecidableEq, Repr

/-- A page of the loaded document: its size and the drawing calls received so
far, oldest first. -/
structure PDFPage where
  width : JSNum
  height : JSNum
  ops : List DrawOp
  deriving DecidableEq, Repr

/-- The method `page.getSize()`. -/
def PDFPage.getSize (page : PDFPage) : Dims :=
  { width := page.width, height := page.height }

/-- The drawing methods of a page of the PDF library (`drawText`, `drawImage`,
`drawCircle`): called with the arguments of `op`, the method either returns or
throws. -/
structure PageMethods where
  call : DrawOp → Except String Unit

/-- Call a drawing method on a page: when the library returns, the call is
recorded on the page; when it throws, the error is passed on and nothing is
recorded. -/
def PDFPage.draw (lib : PageMethods) (page : PDFPage) (op : DrawOp) : Except String PDFPage :=
  match lib.call op with
  | .ok _ => .ok { page with ops := page.ops ++ [op] }
  | .error e => .error e

/-- The array access `pages[n]`: the position when `n` is a non-negative
integer below the length, otherwise nothing (`undefined`). -/
def pageIndex (pages : List PDFPage) (n : JSNum) : Option Nat :=
  match n with
  | .fin q =>
      if q.den = 1 ∧ 0 ≤ q.num ∧ q.num.toNat < pages.length then some q.num.toNat
      else none
  | _ => none

/-- A word character `\w` of a regular expression. -/
def isWordChar (c : Char) : Bool :=
  c.isAlphanum || c == '_'

/-- The call `value.replace(/^data:image\/\w+;base64,/, '')`: a leading
`data:image/<word>;base64,` is removed, anything else is returned unchanged. -/
def stripDataUri (value : String) : String :=
  let head := "data:image/".toList
  let cs := value.toList
  if head.isPrefixOf cs then
    let rest := cs.drop head.length
    let word := rest.takeWhile isWordChar
    let tail := rest.dropWhile isWordChar
    if word ≠ [] ∧ ";base64,".toList.isPrefixOf tail then
      String.mk (tail.drop ";base64,".length)
    else value
  else value

/-- The y coordinate of the field's box in bottom-left page coordinates,
`pageHeight - field.y - field.height` (`server.js`, line 142). -/
def bottomLeftY (pageHeight : JSNum) (field : Field) : JSNum :=
  pageHeight - field.y - field.height

/-- The statement `try { ... } catch (error) { console.error(...) }` around
the image branch: a failure of the body leaves the pages as they were. -/
def tryCatch (pages : List PDFPage) (body : Except String (List PDFPage)) :
    Except String (List PDFPage) :=
  match body with
  | .ok pages' => .ok pages'
  | .error _ => .ok pages

/-- One iteration of `for (const field of fields)` in `POST /api/sign-pdf`
(`server.js`, lines 134-213). `bufferFrom` stands for
`Buffer.from(_, 'base64')`. A throwing `drawText` or `drawCircle` is not
caught here and ends the iteration with the error; the image branch is
wrapped in `try`/`catch`. -/
def processField (bufferFrom : String → Bytes) (pdfDoc : PDFDocument) (lib : PageMethods)
    (pages : List PDFPage) (field : Field) : Except String (List PDFPage) :=
  match pageIndex pages (field.page - 1) with
  | none => pure pages
  | some i =>
    match pages.get? i with
    | none => pure pages
    | some page =>
      let pageHeight := page.getSize.height
      let x := field.x
      let y := bottomLeftY pageHeight field
      let black := rgb 0 0 0
      if field.type = "text" then
        if field.value.truthy then do
          let page' ← page.draw lib (.drawText field.value x (y + field.height - 10) 12 black)
          pure (pages.set i page')
        else pure pages
      else if field.type = "signature" ∨ field.type = "image" then
        if field.value.truthy then
          tryCatch pages (do
            match field.value with
            | .string value =>
              let base64Data := stripDataUri value
              let imageBytes := bufferFrom base64Data
              let imageType := if "data:image/png".toList.isPrefixOf value.toList then "png" else "jpg"
              let imageData ← embedImageWithAspectRatio pdfDoc imageBytes x y
                field.width field.height imageType
              let page' ← page.draw lib (.drawImage imageData.image imageData.x imageData.y
                imageData.width imageData.height)
              pure (pages.set i page')
            | _ => throw "TypeError: field.value.replace is not a function")
        else pure pages
      else if field.type = "date" then
        if field.value.truthy then do
          let page' ← page.draw lib (.drawText field.value x (y + field.height - 10) 12 black)
          pure (pages.set i page')
        else pure pages
      else if field.type = "radio" then
        if field.value.truthy then do
          let page' ← page.draw lib (.drawCircle (x + field.width / 2) (y + field.height / 2)
            (JSNum.min field.width field.height / 3) black)
          pure (pages.set i page')
        else pure pages
      else pure pages

/-- The whole loop `for (const field of fields)`: the fields are processed in
list order, each on the pages left by the one before; an error that leaves an
iteration ends the loop. -/
def processFields (bufferFrom : String → Bytes) (pdfDoc : PDFDocument) (lib : PageMethods)
    (pages : List PDFPage) (fields : List Field) : Except String (List PDFPage) :=
  fields.foldlM (processField bufferFrom pdfDoc lib) pages

/-- A document whose embed calls accept any bytes and yield the given image;
used to evaluate the loop on concrete inputs. -/
def docAccepting (image : PDFImage) : PDFDocument :=
  { embedPng := fun _ => .ok image, embedJpg := fun _ => .ok image }

/-- A document whose embed calls always throw; used to evaluate the loop on
concrete inputs. -/
def docRejecting : PDFDocument :=
  { embedPng := fun _ => .error "not a PNG", embedJpg := fun _ => .error "not a JPEG" }

/-- A library whose drawing methods accept every call; used to evaluate the
loop on concrete inputs. -/
def libAccepting : PageMethods :=
  { call := fun _ => .ok () }

/-- The test `isNaN`. -/
def JSNum.isNaN : JSNum → Bool
  | .nan => true
  | _ => false

/-- A library whose drawing methods check their arguments before drawing:
the text of `drawText` must be a string with no character beyond U+2122 (the
last code point the WinAnsi encoding of the standard font covers), and no
numeric option may be `NaN`. Used to evaluate the loop on inputs the PDF
library rejects. -/
def libChecking : PageMethods :=
  { call := fun op =>
      match op with
      | .drawText text x y size _ =>
        match text with
        | .string s =>
          if s.toList.any (fun c => 0x2122 < c.toNat) then .error "WinAnsi cannot encode the text"
          else if x.isNaN || y.isNaN || size.isNaN then .error "options must be of type number"
          else .ok ()
        | _ => .error "text must be of type string"
      | .drawImage _ x y width height =>
        if x.isNaN || y.isNaN || width.isNaN || height.isNaN then
          .error "options must be of type number"
        else .ok ()
      | .drawCircle x y size _ =>
        if x.isNaN || y.isNaN || size.isNaN then .error "options must be of type number"
        else .ok () }

/-- A data URI holding a valid PNG file of 2 by 1 pixels (8-bit RGBA). -/
def samplePng : String :=
  "data:image/png;base64,iVBORw0KGgoAAAANSUhEUgAAAAIAAAABCAYAAAD0In+KAAAADklEQVR42mNgYGD4D8IABgMB/9LviAYAAAAASUVORK5CYII="

/-- The outcome of the drawing method for `op`: the call when the library
returns, the error when it throws. -/
def issue (lib : PageMethods) (op : DrawOp) : Except String (Option DrawOp) :=
  match lib.call op with
  | .ok _ => .ok (some op)
  | .error e => .error e

/-- The outcome of the `switch` of the loop body once the field's page (of
height `pageHeight`) is found, as a function of the page height and the field
alone: the drawing call recorded, nothing, or the error that leaves the
iteration. In the image branch every failure is caught and gives nothing. -/
def fieldOp (bufferFrom : String → Bytes) (pdfDoc : PDFDocument) (lib : PageMethods)
    (pageHeight : JSNum) (field : Field) : Except String (Option DrawOp) :=
  let x := field.x
  let y := bottomLeftY pageHeight field
  let black := rgb 0 0 0
  if field.type = "text" then
    if field.value.truthy then
      issue lib (.drawText field.value x (y + field.height - 10) 12 black)
    else .ok none
  else if field.type = "signature" ∨ field.type = "image" then
    if field.value.truthy then
      match field.value with
      | .string value =>
        match embedImageWithAspectRatio pdfDoc (bufferFrom (stripDataUri value)) x y
            field.width field.height
            (if "data:image/png".toList.isPrefixOf value.toList then "png" else "jpg") with
        | .ok imageData =>
          match lib.call (.drawImage imageData.image imageData.x imageData.y
              imageData.width imageData.height) with
          | .ok _ => .ok (some (.drawImage imageData.image imageData.x imageData.y
              imageData.width imageData.height))
          | .error _ => .ok none
        | .error _ => .ok none
      | _ => .ok none
    else .ok none
  else if field.type = "date" then
    if field.value.truthy then
      issue lib (.drawText field.value x (y + field.height - 10) 12 black)
    else .ok none
  else if field.type = "radio" then
    if field.value.truthy then
      issue lib (.drawCircle (x + field.width / 2) (y + field.height / 2)
        (JSNum.min field.width field.height / 3) black)
    else .ok none
  else .ok none

/-- The pages with every recorded drawing call removed. -/
def blankPages (pages : List PDFPage) : List PDFPage :=
  pages.map fun page => { page with ops := [] }

/-- The drawing calls a single field leaves on page number `j` (counted from
0): what one iteration of the loop, run for this field alone on the blank
pages, records on that page. A field whose iteration throws leaves none. -/
def drawnBy (bufferFrom : String → Bytes) (pdfDoc : PDFDocument) (lib : PageMethods)
    (pages : List PDFPage) (field : Field) (j : Nat) : List DrawOp :=
  match processField bufferFrom pdfDoc lib (blankPages pages) field with
  | .ok pages' =>
    match pages'.get? j with
    | some page => page.ops
    | none => []
  | .error _ => []

/-! ## IEEE 754 doubles -/

/-- An IEEE 754 binary64 value. A finite value is `(-1)^neg * m * 2^e`, kept
in the form the rounding produces: `m = 0` and `e = 0` for a zero,
`m < 2^52` and `e = -1074` for a subnormal, `2^52 ≤ m < 2^53` and
`-1074 ≤ e ≤ 971` otherwise. -/
inductive F64 where
  | finite (neg : Bool) (m : Nat) (e : Int)
  | inf (neg : Bool)
  | nan
  deriving DecidableEq, Repr

namespace F64

/-- The position of the leading bit of `n`, found by halving at most `fuel`
times. -/
def log2Fuel : Nat → Nat → Nat
  | 0, _ => 0
  | fuel + 1, n => if n < 2 then 0 else log2Fuel fuel (n / 2) + 1

/-- The position of the leading bit of `n` (for `n` below `2^4096`). -/
def log2 (n : Nat) : Nat := log2Fuel 4096 n

/-- Round the rational `n / d` (with `d > 0`), taken with the sign `neg`, to
the nearest double, ties to even: 53 significant bits, exponent of the last
bit at least `-1074`, and `Infinity` from `2^1024 - 2^970` on. -/
def round (neg : Bool) (n d : Nat) : F64 :=
  if n = 0 then finite neg 0 0 else
  let k : Int := (log2 n : Int) - (log2 d : Int)
  let E : Int := if d * 2 ^ k.toNat ≤ n * 2 ^ (-k).toNat then k else k - 1
  let q : Int := max (E - 52) (-1074)
  let N := n * 2 ^ (-q).toNat
  let D := d * 2 ^ q.toNat
  let M0 := N / D
  let R := N % D
  let M := if D < 2 * R ∨ (2 * R = D ∧ M0 % 2 = 1) then M0 + 1 else M0
  if M = 0 then finite neg 0 0
  else if M = 2 ^ 53 then (if 971 < q + 1 then inf neg else finite neg (2 ^ 52) (q + 1))
  else if 971 < q then inf neg else finite neg M q

/-- The double of an integer literal. -/
def ofNat (n : Nat) : F64 := round false n 1

/-- The double of a decimal literal with the value `n / d`, such as `1e-6`. -/
def ofRatio (n d : Nat) : F64 := round false n d

/-- The exact value of a finite double (0 for the special values). -/
def toRat : F64 → ℚ
  | finite neg m e => (if neg then -1 else 1) * (m : ℚ) * (2 : ℚ) ^ e
  | _ => 0

/-- The integer `v` with value `v * 2^e0` for a finite double given by sign,
significand and exponent `e ≥ e0`. -/
def scaled (neg : Bool) (m : Nat) (e e0 : Int) : Int :=
  (if neg then -1 else 1) * ((m * 2 ^ (e - e0).toNat : Nat) : Int)

/-- Unary minus. -/
def neg : F64 → F64
  | finite s m e => finite (!s) m e
  | inf s => inf (!s)
  | nan => nan

/-- The operator `+`: the exact sum, rounded. An exact zero sum is `+0`
unless both operands are negative. -/
def add : F64 → F64 → F64
  | finite s1 m1 e1, finite s2 m2 e2 =>
    let e := min e1 e2
    let v := scaled s1 m1 e1 e + scaled s2 m2 e2 e
    if v = 0 then finite (s1 && s2) 0 0
    else round (decide (v < 0)) (v.natAbs * 2 ^ e.toNat) (2 ^ (-e).toNat)
  | nan, _ => nan
  | _, nan => nan
  | inf s1, inf s2 => if s1 = s2 then inf s1 else nan
  | inf s, finite _ _ _ => inf s
  | finite _ _ _, inf s => inf s

/-- The operator `-`. -/
def sub (a b : F64) : F64 := add a (neg b)

/-- The operator `*`: the exact product, rounded; the sign is the product of
the signs, also for a zero. -/
def mul : F64 → F64 → F64
  | finite s1 m1 e1, finite s2 m2 e2 =>
    let e := e1 + e2
    round (xor s1 s2) (m1 * m2 * 2 ^ e.toNat) (2 ^ (-e).toNat)
  | nan, _ => nan
  | _, nan => nan
  | inf s1, inf s2 => inf (xor s1 s2)
  | inf s1, finite s2 m _ => if m = 0 then nan else inf (xor s1 s2)
  | finite s1 m _, inf s2 => if m = 0 then nan else inf (xor s1 s2)

/-- The operator `/`: the exact quotient, rounded. A non-zero number divided
by a zero is an infinity whose sign is the product of the signs, and `0 / 0`
is `NaN`. -/
def div : F64 → F64 → F64
  | finite s1 m1 e1, finite s2 m2 e2 =>
    if m2 = 0 then (if m1 = 0 then nan else inf (xor s1 s2))
    else
      let e := e1 - e2
      round (xor s1 s2) (m1 * 2 ^ e.toNat) (m2 * 2 ^ (-e).toNat)
  | nan, _ => nan
  | _, nan => nan
  | inf _, inf _ => nan
  | inf s1, finite s2 _ _ => inf (xor s1 s2)
  | finite s1 _ _, inf s2 => finite (xor s1 s2) 0 0

/-- The comparison `a > b`; false whenever an operand is `NaN`, and `+0` and
`-0` compare equal. -/
def gt : F64 → F64 → Bool
  | finite s1 m1 e1, finite s2 m2 e2 =>
    let e := min e1 e2
    decide (scaled s2 m2 e2 e < scaled s1 m1 e1 e)
  | nan, _ => false
  | _, nan => false
  | inf s1, inf s2 => !s1 && s2
  | inf s, finite _ _ _ => !s
  | finite _ _ _, inf s => s

instance : Add F64 := ⟨add⟩
instance : Sub F64 := ⟨sub⟩
instance : Mul F64 := ⟨mul⟩
instance : Div F64 := ⟨div⟩
instance : Neg F64 := ⟨neg⟩
instance (n : Nat) : OfNat F64 n := ⟨ofNat n⟩

/-- The constant `PDF_DPI`. -/
def PDF_DPI : F64 := 72

/-- The function `pixelsToPoints` on doubles. -/
def pixelsToPoints (pixels scale : F64) : F64 :=
  (pixels / scale) * (PDF_DPI / 96)

/-- The function `pointsToPixels` on doubles. -/
def pointsToPixels (points scale : F64) : F64 :=
  points * (96 / PDF_DPI) * scale

/-- A pair `{ x, y }` of doubles. -/
structure Coords where
  x : F64
  y : F64
  deriving DecidableEq, Repr

/-- The function `browserToPdfCoords` on doubles. -/
def browserToPdfCoords (x y _pdfHeight containerHeight scale : F64) : Coords :=
  let xPoints := pixelsToPoints x scale
  let yPixels := containerHeight - y
  let yPoints := pixelsToPoints yPixels scale
  { x := xPoints, y := yPoints }

/-- The function `pdfToBrowserCoords` on doubles. -/
def pdfToBrowserCoords (x y _pdfHeight containerHeight scale : F64) : Coords :=
  let xPixels := pointsToPixels x scale
  let yPixels := pointsToPixels y scale
  let yBrowser := containerHeight - yPixels
  { x := xPixels, y := yBrowser }

/-- Width and height as doubles. -/
structure Dims where
  width : F64
  height : F64
  deriving DecidableEq, Repr

/-- A rectangle `{ x, y, width, height }` of doubles. -/
structure Rect where
  x : F64
  y : F64
  width : F64
  height : F64
  deriving DecidableEq, Repr

/-- The arithmetic of `embedImageWithAspectRatio` (`server.js`, lines 90-113)
on doubles, from the size `imageDims` of the embedded image on. -/
def embedImageWithAspectRatio (imageDims : Dims) (x y width height : F64) : Rect :=
  let imageAspectRatio := imageDims.width / imageDims.height
  let boxAspectRatio := width / height
  if gt imageAspectRatio boxAspectRatio then
    let offsetX : F64 := 0
    let finalWidth := width
    let finalHeight := width / imageAspectRatio
    let offsetY := (height - finalHeight) / 2
    { x := x + offsetX, y := y + offsetY, width := finalWidth, height := finalHeight }
  else
    let offsetY : F64 := 0
    let finalHeight := height
    let finalWidth := height * imageAspectRatio
    let offsetX := (width - finalWidth) / 2
    { x := x + offsetX, y := y + offsetY, width := finalWidth, height := finalHeight }

end F64

/-! ## Arithmetic of finite numbers -/

namespace JSNum

theorem fin_add (a b : ℚ) : fin a + fin b = fin (a + b) := rfl

theorem fin_sub (a b : ℚ) : fin a - fin b = fin (a - b) := by
  show add (fin a) (neg (fin b)) = fin (a - b)
  simp [add, neg, sub_eq_add_neg]

theorem fin_mul (a b : ℚ) : fin a * fin b = fin (a * b) := rfl

theorem fin_div (a b : ℚ) (hb : b ≠ 0) : fin a / fin b = fin (a / b) := by
  show div (fin a) (fin b) = fin (a / b)
  simp [div, hb]

theorem fin_div_zero (a : ℚ) (ha : 0 < a) : fin a / fin 0 = posInf := by
  show div (fin a) (fin 0) = posInf
  simp [div, ha, ha.ne']

theorem gt_fin (a b : ℚ) : gt (fin a) (fin b) = decide (b < a) := rfl

theorem ofNat_eq (n : Nat) [n.AtLeastTwo] : (OfNat.ofNat n : JSNum) = fin (OfNat.ofNat n) := by
  show fin ((n : ℕ) : ℚ) = fin (OfNat.ofNat n)
  rfl

theorem zero_eq : (0 : JSNum) = fin 0 := by
  show fin ((0 : ℕ) : ℚ) = fin 0
  simp

theorem one_eq : (1 : JSNum) = fin 1 := by
  show fin ((1 : ℕ) : ℚ) = fin 1
  simp

end JSNum

/-! ## Coordinate conversion -/

theorem pixelsToPoints_fin (p s : ℚ) (hs : s ≠ 0) :
    pixelsToPoints (fin p) (fin s) = fin (p / s * (72 / 96)) := by
  simp [pixelsToPoints, PDF_DPI, ofNat_eq, fin_div, fin_mul, hs]

theorem pointsToPixels_fin (q s : ℚ) :
    pointsToPixels (fin q) (fin s) = fin (q * (96 / 72) * s) := by
  simp [pointsToPixels, PDF_DPI, ofNat_eq, fin_div, fin_mul]

/-- Claim C1, as amended: in exact arithmetic (no rounding, overflow or
underflow), for a zoom scale `s > 0`, converting pixels to points and back
returns the pixel value, and converting points to pixels and back returns
the point value: the two formulas are inverse to each other. -/
theorem pixel_point_roundtrip (p q s : ℚ) (hs : 0 < s) :
    pointsToPixels (pixelsToPoints (fin p) (fin s)) (fin s) = fin p ∧
    pixelsToPoints (pointsToPixels (fin q) (fin s)) (fin s) = fin q := by
  have hs' : s ≠ 0 := hs.ne'
  refine ⟨?_, ?_⟩
  · rw [pixelsToPoints_fin p s hs', pointsToPixels_fin]
    congr 1
    field_simp
    ring
  · rw [pointsToPixels_fin, pixelsToPoints_fin _ s hs']
    congr 1
    field_simp
    ring

theorem pixel_point_roundtrip_witness :
    (0 : ℚ) < 2 ∧
    (pointsToPixels (pixelsToPoints (fin 100) (fin 2)) (fin 2) = fin 100 ∧
     pixelsToPoints (pointsToPixels (fin 75) (fin 2)) (fin 2) = fin 75) :=
  ⟨by norm_num, pixel_point_roundtrip 100 75 2 (by norm_num)⟩

/-- Claim C2, as amended: in exact arithmetic (no rounding, overflow or
underflow), for finite `x`, `y`, `containerHeight`, a scale `s > 0` and any
`pdfHeight`, `pdfToBrowserCoords` applied to the result of `browserToPdfCoords`
with the same `pdfHeight`, `containerHeight` and scale returns `{x, y}`. -/
theorem pdfToBrowser_browserToPdf (x y c s : ℚ) (pdfHeight : JSNum) (hs : 0 < s) :
    pdfToBrowserCoords (browserToPdfCoords (fin x) (fin y) pdfHeight (fin c) (fin s)).x
      (browserToPdfCoords (fin x) (fin y) pdfHeight (fin c) (fin s)).y
      pdfHeight (fin c) (fin s) = { x := fin x, y := fin y } := by
  have hs' : s ≠ 0 := hs.ne'
  simp only [browserToPdfCoords, pdfToBrowserCoords, fin_sub, pixelsToPoints_fin _ s hs',
    pointsToPixels_fin]
  congr 2
  · field_simp
    ring
  · field_simp
    ring

theorem pdfToBrowser_browserToPdf_witness :
    (0 : ℚ) < 3 / 2 ∧
    pdfToBrowserCoords (browserToPdfCoords (fin 10) (fin 20) (fin 792) (fin 1056) (fin (3 / 2))).x
      (browserToPdfCoords (fin 10) (fin 20) (fin 792) (fin 1056) (fin (3 / 2))).y
      (fin 792) (fin 1056) (fin (3 / 2)) = { x := fin 10, y := fin 20 } :=
  ⟨by norm_num, pdfToBrowser_browserToPdf 10 20 1056 (3 / 2) (fin 792) (by norm_num)⟩

/-! ## The editor's conversion followed by the server's axis flip -/

/-- Claim C3: for an editor field with finite pixel position `y` and pixel
height `h`, on a page of height `H` points, the bottom-left document y after
`handleSignPDF` and the server's flip is `H - y * (72/96) - h * (72/96)`, and
the box from there up to that value plus the converted height ends at
`H - y * (72/96)`, the converted top edge of the editor box. -/
theorem bottomLeftY_fieldData (f : Field) (y h H : ℚ)
    (hy : f.y = fin y) (hh : f.height = fin h) :
    (fieldData [f]).map (bottomLeftY (fin H)) = [fin (H - y * (72 / 96) - h * (72 / 96))] ∧
    (fieldData [f]).map (fun g => bottomLeftY (fin H) g + g.height)
      = [fin (H - y * (72 / 96))] := by
  simp [fieldData, bottomLeftY, pointsPerPixel, hy, hh, ofNat_eq, fin_div, fin_mul, fin_sub,
    fin_add]

theorem bottomLeftY_fieldData_witness :
    (fieldData [⟨"1", "text", fin 100, fin 100, fin 200, fin 40, .string "Alice", fin 1⟩]).map
        (bottomLeftY (fin 792)) = [fin (792 - 100 * (72 / 96) - 40 * (72 / 96))] ∧
    (fieldData [⟨"1", "text", fin 100, fin 100, fin 200, fin 40, .string "Alice", fin 1⟩]).map
        (fun g => bottomLeftY (fin 792) g + g.height) = [fin (792 - 100 * (72 / 96))] :=
  bottomLeftY_fieldData ⟨"1", "text", fin 100, fin 100, fin 200, fin 40, .string "Alice", fin 1⟩
    100 40 792 rfl rfl

/-! ## Aspect fitting -/

/-- The wide branch of `embedImageWithAspectRatio` on finite positive sizes. -/
theorem embed_wide (pdfDoc : PDFDocument) (imageBytes : Bytes) (imageType : String)
    (iw ih x y w h : ℚ) (hiw : 0 < iw) (hih : 0 < ih) (hh : 0 < h)
    (hembed : (if imageType = "png" then pdfDoc.embedPng imageBytes
      else pdfDoc.embedJpg imageBytes) = .ok ⟨fin iw, fin ih⟩)
    (hwide : w / h < iw / ih) :
    embedImageWithAspectRatio pdfDoc imageBytes (fin x) (fin y) (fin w) (fin h) imageType
      = .ok { image := ⟨fin iw, fin ih⟩, x := fin x, y := fin (y + (h - w / (iw / ih)) / 2),
              width := fin w, height := fin (w / (iw / ih)) } := by
  have h1 : iw / ih ≠ 0 := (div_pos hiw hih).ne'
  unfold embedImageWithAspectRatio
  by_cases ht : imageType = "png" <;>
  · simp only [ht, if_true, if_false] at hembed ⊢
    simp only [hembed, PDFImage.scale, one_eq, zero_eq, ofNat_eq,
      fin_mul, mul_one, fin_div _ _ hih.ne', fin_div _ _ hh.ne', gt_fin, hwide, decide_True,
      if_true, bind, Except.bind, pure, Except.pure, fin_div _ _ h1, fin_sub, fin_add, add_zero,
      fin_div _ (2 : ℚ) (by norm_num)]

/-- The tall branch of `embedImageWithAspectRatio` on finite positive sizes. -/
theorem embed_tall (pdfDoc : PDFDocument) (imageBytes : Bytes) (imageType : String)
    (iw ih x y w h : ℚ) (hih : 0 < ih) (hh : 0 < h)
    (hembed : (if imageType = "png" then pdfDoc.embedPng imageBytes
      else pdfDoc.embedJpg imageBytes) = .ok ⟨fin iw, fin ih⟩)
    (htall : ¬ w / h < iw / ih) :
    embedImageWithAspectRatio pdfDoc imageBytes (fin x) (fin y) (fin w) (fin h) imageType
      = .ok { image := ⟨fin iw, fin ih⟩, x := fin (x + (w - h * (iw / ih)) / 2), y := fin y,
              width := fin (h * (iw / ih)), height := fin h } := by
  unfold embedImageWithAspectRatio
  by_cases ht : imageType = "png" <;>
  · simp only [ht, if_true, if_false] at hembed ⊢
    simp only [hembed, PDFImage.scale, one_eq, zero_eq, ofNat_eq,
      fin_mul, mul_one, fin_div _ _ hih.ne', fin_div _ _ hh.ne', gt_fin, htall, decide_False,
      bind, Except.bind, pure, Except.pure, fin_sub, fin_add, add_zero,
      fin_div _ (2 : ℚ) (by norm_num)]
    simp

/-- Claim C4: for an image of positive intrinsic size `(iw, ih)` and a box
`(x, y, w, h)` with `h > 0`, the result is: when `iw/ih > w/h`, width `w`,
height `w/(iw/ih)`, `x` unchanged and `y + (h - height)/2`; otherwise height
`h`, width `h*(iw/ih)`, `y` unchanged and `x + (w - width)/2`. A 400x200 image
in a 150x150 box gets size 150x75 and is moved up by 37.5. -/
theorem embed_result (pdfDoc : PDFDocument) (imageBytes : Bytes) (imageType : String)
    (iw ih x y w h : ℚ) (hiw : 0 < iw) (hih : 0 < ih) (hh : 0 < h)
    (hembed : (if imageType = "png" then pdfDoc.embedPng imageBytes
      else pdfDoc.embedJpg imageBytes) = .ok ⟨fin iw, fin ih⟩) :
    embedImageWithAspectRatio pdfDoc imageBytes (fin x) (fin y) (fin w) (fin h) imageType
      = .ok (if w / h < iw / ih then
          { image := ⟨fin iw, fin ih⟩, x := fin x, y := fin (y + (h - w / (iw / ih)) / 2),
            width := fin w, height := fin (w / (iw / ih)) }
        else
          { image := ⟨fin iw, fin ih⟩, x := fin (x + (w - h * (iw / ih)) / 2), y := fin y,
            width := fin (h * (iw / ih)), height := fin h }) ∧
    (iw = 400 → ih = 200 → w = 150 → h = 150 →
      embedImageWithAspectRatio pdfDoc imageBytes (fin x) (fin y) (fin w) (fin h) imageType
        = .ok { image := ⟨fin 400, fin 200⟩, x := fin x, y := fin (y + 75 / 2),
                width := fin 150, height := fin 75 }) := by
  refine ⟨?_, ?_⟩
  · by_cases hc : w / h < iw / ih
    · rw [if_pos hc]
      exact embed_wide pdfDoc imageBytes imageType iw ih x y w h hiw hih hh hembed hc
    · rw [if_neg hc]
      exact embed_tall pdfDoc imageBytes imageType iw ih x y w h hih hh hembed hc
  · intro h1 h2 h3 h4
    subst h1 h2 h3 h4
    rw [embed_wide pdfDoc imageBytes imageType 400 200 x y 150 150 hiw hih hh hembed
      (by norm_num)]
    norm_num

theorem embed_result_witness :
    (0 : ℚ) < 400 ∧ (0 : ℚ) < 200 ∧ (0 : ℚ) < 150 ∧
    embedImageWithAspectRatio (docAccepting ⟨fin 400, fin 200⟩) [] (fin 0) (fin 0) (fin 150)
        (fin 150) "png"
      = .ok { image := ⟨fin 400, fin 200⟩, x := fin 0, y := fin (0 + 75 / 2),
              width := fin 150, height := fin 75 } :=
  ⟨by norm_num, by norm_num, by norm_num,
    (embed_result (docAccepting ⟨fin 400, fin 200⟩) [] "png" 400 200 0 0 150 150
      (by norm_num) (by norm_num) (by norm_num) rfl).2 rfl rfl rfl rfl⟩

/-- Claim C5, as amended: in exact arithmetic, for positive image and box
sizes the returned rectangle lies inside the box: `x ≤ rx`, `rx + rw ≤ x + w`,
`y ≤ ry` and `ry + rh ≤ y + h`. -/
theorem embed_inside_box (pdfDoc : PDFDocument) (imageBytes : Bytes) (imageType : String)
    (iw ih x y w h : ℚ) (hiw : 0 < iw) (hih : 0 < ih) (hh : 0 < h)
    (hembed : (if imageType = "png" then pdfDoc.embedPng imageBytes
      else pdfDoc.embedJpg imageBytes) = .ok ⟨fin iw, fin ih⟩) :
    ∃ r rx ry rw rh,
      embedImageWithAspectRatio pdfDoc imageBytes (fin x) (fin y) (fin w) (fin h) imageType
        = .ok r ∧
      r.x = fin rx ∧ r.y = fin ry ∧ r.width = fin rw ∧ r.height = fin rh ∧
      x ≤ rx ∧ rx + rw ≤ x + w ∧ y ≤ ry ∧ ry + rh ≤ y + h := by
  by_cases hc : w / h < iw / ih
  · refine ⟨_, _, _, _, _,
      embed_wide pdfDoc imageBytes imageType iw ih x y w h hiw hih hh hembed hc,
      rfl, rfl, rfl, rfl, le_refl _, le_refl _, ?_, ?_⟩
    all_goals
      have hfit : w / (iw / ih) ≤ h := by
        rw [div_le_iff₀ (div_pos hiw hih)]
        have := (div_lt_iff₀ hh).1 hc
        linarith
      linarith
  · refine ⟨_, _, _, _, _,
      embed_tall pdfDoc imageBytes imageType iw ih x y w h hih hh hembed hc,
      rfl, rfl, rfl, rfl, ?_, ?_, le_refl _, le_refl _⟩
    all_goals
      have hfit : h * (iw / ih) ≤ w := by
        have := (le_div_iff₀ hh).1 (not_lt.1 hc)
        linarith
      linarith

theorem embed_inside_box_witness :
    (0 : ℚ) < 400 ∧ (0 : ℚ) < 200 ∧ (0 : ℚ) < 150 ∧
    ∃ r rx ry rw rh,
      embedImageWithAspectRatio (docAccepting ⟨fin 400, fin 200⟩) [] (fin 10) (fin 20)
        (fin 150) (fin 150) "jpg" = .ok r ∧
      r.x = fin rx ∧ r.y = fin ry ∧ r.width = fin rw ∧ r.height = fin rh ∧
      (10 : ℚ) ≤ rx ∧ rx + rw ≤ 10 + 150 ∧ (20 : ℚ) ≤ ry ∧ ry + rh ≤ 20 + 150 :=
  ⟨by norm_num, by norm_num, by norm_num,
    embed_inside_box (docAccepting ⟨fin 400, fin 200⟩) [] "jpg" 400 200 10 20 150 150
      (by norm_num) (by norm_num) (by norm_num) rfl⟩

/-- Claim C6, as amended: in exact arithmetic, for positive image and box
sizes the returned rectangle keeps the image's aspect ratio, in both
branches: `width / height = iw / ih`, both as a quotient of the returned
values and as `rw * ih = rh * iw`. -/
theorem embed_keeps_aspect (pdfDoc : PDFDocument) (imageBytes : Bytes) (imageType : String)
    (iw ih x y w h : ℚ) (hiw : 0 < iw) (hih : 0 < ih) (hw : 0 < w) (hh : 0 < h)
    (hembed : (if imageType = "png" then pdfDoc.embedPng imageBytes
      else pdfDoc.embedJpg imageBytes) = .ok ⟨fin iw, fin ih⟩) :
    ∃ r rw rh,
      embedImageWithAspectRatio pdfDoc imageBytes (fin x) (fin y) (fin w) (fin h) imageType
        = .ok r ∧
      r.width = fin rw ∧ r.height = fin rh ∧
      r.width / r.height = fin (iw / ih) ∧ rw / rh = iw / ih ∧ rw * ih = rh * iw := by
  have ha : 0 < iw / ih := div_pos hiw hih
  by_cases hc : w / h < iw / ih
  · have hne : w / (iw / ih) ≠ 0 := (div_pos hw ha).ne'
    have hq : w / (w / (iw / ih)) = iw / ih := by
      field_simp
      ring
    refine ⟨_, _, _,
      embed_wide pdfDoc imageBytes imageType iw ih x y w h hiw hih hh hembed hc,
      rfl, rfl, ?_, hq, ?_⟩
    · show fin w / fin (w / (iw / ih)) = fin (iw / ih)
      rw [fin_div _ _ hne, hq]
    · field_simp
  · have hq : h * (iw / ih) / h = iw / ih := by
      field_simp
      ring
    refine ⟨_, _, _,
      embed_tall pdfDoc imageBytes imageType iw ih x y w h hih hh hembed hc,
      rfl, rfl, ?_, hq, ?_⟩
    · show fin (h * (iw / ih)) / fin h = fin (iw / ih)
      rw [fin_div _ _ hh.ne', hq]
    · field_simp

theorem embed_keeps_aspect_witness :
    (0 : ℚ) < 100 ∧ (0 : ℚ) < 300 ∧ (0 : ℚ) < 200 ∧ (0 : ℚ) < 80 ∧
    ∃ r rw rh,
      embedImageWithAspectRatio (docAccepting ⟨fin 100, fin 300⟩) [] (fin 0) (fin 0)
        (fin 200) (fin 80) "png" = .ok r ∧
      r.width = fin rw ∧ r.height = fin rh ∧
      r.width / r.height = fin (100 / 300) ∧ rw / rh = 100 / 300 ∧ rw * 300 = rh * 100 :=
  ⟨by norm_num, by norm_num, by norm_num, by norm_num,
    embed_keeps_aspect (docAccepting ⟨fin 100, fin 300⟩) [] "png" 100 300 0 0 200 80
      (by norm_num) (by norm_num) (by norm_num) (by norm_num) rfl⟩

/-- Claim C7, as amended: in exact arithmetic, for positive image and box
sizes the returned rectangle is centred in the box on both axes: the left
margin equals the right margin and the bottom margin equals the top margin; on
the fitted axis (horizontal when `iw/ih > w/h`, vertical otherwise) the margin
is zero. -/
theorem embed_centred (pdfDoc : PDFDocument) (imageBytes : Bytes) (imageType : String)
    (iw ih x y w h : ℚ) (hiw : 0 < iw) (hih : 0 < ih) (hh : 0 < h)
    (hembed : (if imageType = "png" then pdfDoc.embedPng imageBytes
      else pdfDoc.embedJpg imageBytes) = .ok ⟨fin iw, fin ih⟩) :
    ∃ r rx ry rw rh,
      embedImageWithAspectRatio pdfDoc imageBytes (fin x) (fin y) (fin w) (fin h) imageType
        = .ok r ∧
      r.x = fin rx ∧ r.y = fin ry ∧ r.width = fin rw ∧ r.height = fin rh ∧
      rx - x = (x + w) - (rx + rw) ∧ ry - y = (y + h) - (ry + rh) ∧
      (if w / h < iw / ih then rx - x = 0 else ry - y = 0) := by
  by_cases hc : w / h < iw / ih
  · refine ⟨_, _, _, _, _,
      embed_wide pdfDoc imageBytes imageType iw ih x y w h hiw hih hh hembed hc,
      rfl, rfl, rfl, rfl, ?_, ?_, ?_⟩
    · ring
    · ring
    · rw [if_pos hc]; ring
  · refine ⟨_, _, _, _, _,
      embed_tall pdfDoc imageBytes imageType iw ih x y w h hih hh hembed hc,
      rfl, rfl, rfl, rfl, ?_, ?_, ?_⟩
    · ring
    · ring
    · rw [if_neg hc]; ring

theorem embed_centred_witness :
    (0 : ℚ) < 400 ∧ (0 : ℚ) < 200 ∧ (0 : ℚ) < 150 ∧
    ∃ r rx ry rw rh,
      embedImageWithAspectRatio (docAccepting ⟨fin 400, fin 200⟩) [] (fin 30) (fin 40)
        (fin 150) (fin 150) "png" = .ok r ∧
      r.x = fin rx ∧ r.y = fin ry ∧ r.width = fin rw ∧ r.height = fin rh ∧
      rx - 30 = (30 + 150) - (rx + rw) ∧ ry - 40 = (40 + 150) - (ry + rh) ∧
      (if (150 : ℚ) / 150 < 400 / 200 then rx - 30 = 0 else ry - 40 = 0) :=
  ⟨by norm_num, by norm_num, by norm_num,
    embed_centred (docAccepting ⟨fin 400, fin 200⟩) [] "png" 400 200 30 40 150 150
      (by norm_num) (by norm_num) (by norm_num) rfl⟩

/-- Claim C8, as amended: in exact arithmetic, for positive image and box
sizes the returned rectangle touches a pair of opposite box edges (width `w`
with `rx = x`, or height `h` with `ry = y`), lies inside the box, has the
image's aspect ratio, and is the largest such rectangle: no rectangle of the
image's aspect ratio with a strictly larger width has both sides within the
box's. -/
theorem embed_touches_and_largest (pdfDoc : PDFDocument) (imageBytes : Bytes)
    (imageType : String)
    (iw ih x y w h : ℚ) (hiw : 0 < iw) (hih : 0 < ih) (hw : 0 < w) (hh : 0 < h)
    (hembed : (if imageType = "png" then pdfDoc.embedPng imageBytes
      else pdfDoc.embedJpg imageBytes) = .ok ⟨fin iw, fin ih⟩) :
    ∃ r rx ry rw rh,
      embedImageWithAspectRatio pdfDoc imageBytes (fin x) (fin y) (fin w) (fin h) imageType
        = .ok r ∧
      r.x = fin rx ∧ r.y = fin ry ∧ r.width = fin rw ∧ r.height = fin rh ∧
      ((rw = w ∧ rx = x) ∨ (rh = h ∧ ry = y)) ∧
      (x ≤ rx ∧ rx + rw ≤ x + w ∧ y ≤ ry ∧ ry + rh ≤ y + h) ∧
      (0 < rw ∧ 0 < rh ∧ rw / rh = iw / ih) ∧
      ∀ w' h' : ℚ, 0 < h' → w' / h' = iw / ih → rw < w' → ¬ (w' ≤ w ∧ h' ≤ h) := by
  have ha : 0 < iw / ih := div_pos hiw hih
  by_cases hc : w / h < iw / ih
  · have hpos : 0 < w / (iw / ih) := div_pos hw ha
    have hfit : w / (iw / ih) ≤ h := by
      rw [div_le_iff₀ ha]
      have := (div_lt_iff₀ hh).1 hc
      linarith
    have hq : w / (w / (iw / ih)) = iw / ih := by
      field_simp
      ring
    refine ⟨_, _, _, _, _,
      embed_wide pdfDoc imageBytes imageType iw ih x y w h hiw hih hh hembed hc,
      rfl, rfl, rfl, rfl, Or.inl ⟨rfl, rfl⟩, ⟨le_refl _, le_refl _, ?_, ?_⟩,
      ⟨hw, hpos, hq⟩, ?_⟩
    · linarith
    · linarith
    · intro w' h' _ _ hlt hfit'
      exact absurd hfit'.1 (not_le.2 hlt)
  · have hpos : 0 < h * (iw / ih) := mul_pos hh ha
    have hfit : h * (iw / ih) ≤ w := by
      have := (le_div_iff₀ hh).1 (not_lt.1 hc)
      linarith
    have hq : h * (iw / ih) / h = iw / ih := by
      field_simp
      ring
    refine ⟨_, _, _, _, _,
      embed_tall pdfDoc imageBytes imageType iw ih x y w h hih hh hembed hc,
      rfl, rfl, rfl, rfl, Or.inr ⟨rfl, rfl⟩, ⟨?_, ?_, le_refl _, le_refl _⟩,
      ⟨hpos, hh, hq⟩, ?_⟩
    · linarith
    · linarith
    · intro w' h' hh' hasp hlt hfit'
      have hw' : w' = h' * (iw / ih) := by
        rw [← hasp]; field_simp
      have : h' * (iw / ih) ≤ h * (iw / ih) := mul_le_mul_of_nonneg_right hfit'.2 ha.le
      linarith

theorem embed_touches_and_largest_witness :
    (0 : ℚ) < 100 ∧ (0 : ℚ) < 300 ∧ (0 : ℚ) < 200 ∧ (0 : ℚ) < 80 ∧
    ∃ r rx ry rw rh,
      embedImageWithAspectRatio (docAccepting ⟨fin 100, fin 300⟩) [] (fin 5) (fin 6)
        (fin 200) (fin 80) "png" = .ok r ∧
      r.x = fin rx ∧ r.y = fin ry ∧ r.width = fin rw ∧ r.height = fin rh ∧
      ((rw = 200 ∧ rx = 5) ∨ (rh = 80 ∧ ry = 6)) ∧
      ((5 : ℚ) ≤ rx ∧ rx + rw ≤ 5 + 200 ∧ (6 : ℚ) ≤ ry ∧ ry + rh ≤ 6 + 80) ∧
      (0 < rw ∧ 0 < rh ∧ rw / rh = 100 / 300) ∧
      ∀ w' h' : ℚ, 0 < h' → w' / h' = 100 / 300 → rw < w' → ¬ (w' ≤ 200 ∧ h' ≤ 80) :=
  ⟨by norm_num, by norm_num, by norm_num, by norm_num,
    embed_touches_and_largest (docAccepting ⟨fin 100, fin 300⟩) [] "png" 100 300 5 6 200 80
      (by norm_num) (by norm_num) (by norm_num) (by norm_num) rfl⟩


/-! ## The loop as a sequence of steps -/

/-- One iteration in terms of `fieldOp`: without a page, or when the `switch`
issues no call, the pages are returned unchanged; a recorded call is appended
to the field's page; an uncaught error leaves the iteration. -/
theorem processField_eq (bufferFrom : String → Bytes) (pdfDoc : PDFDocument)
    (lib : PageMethods) (pages : List PDFPage) (field : Field) :
    processField bufferFrom pdfDoc lib pages field =
      match pageIndex pages (field.page - 1) with
      | none => .ok pages
      | some i =>
        match pages.get? i with
        | none => .ok pages
        | some page =>
          match fieldOp bufferFrom pdfDoc lib page.height field with
          | .error e => .error e
          | .ok none => .ok pages
          | .ok (some op) => .ok (pages.set i { page with ops := page.ops ++ [op] }) := by
  unfold processField
  cases hpi : pageIndex pages (field.page - 1) with
  | none => rfl
  | some i =>
    dsimp only
    cases hget : pages.get? i with
    | none => rfl
    | some page =>
      dsimp only [fieldOp, PDFPage.getSize]
      by_cases h1 : field.type = "text"
      · by_cases hv : field.value.truthy = true
        · simp only [if_pos h1, hv, if_true, issue, PDFPage.draw, bind, Except.bind, pure,
            Except.pure]
          cases lib.call (DrawOp.drawText field.value field.x
            (bottomLeftY page.height field + field.height - 10) 12 (rgb 0 0 0)) <;> rfl
        · simp only [if_pos h1, hv, if_true, if_false, Bool.false_eq_true, pure, Except.pure]
      · by_cases h2 : field.type = "signature" ∨ field.type = "image"
        · by_cases hv : field.value.truthy = true
          · simp only [if_neg h1, if_pos h2, hv, if_true, if_false]
            cases hval : field.value with
            | string value =>
              simp only [tryCatch, PDFPage.draw, bind, Except.bind, pure, Except.pure]
              cases hemb : embedImageWithAspectRatio pdfDoc (bufferFrom (stripDataUri value))
                field.x (bottomLeftY page.height field) field.width field.height
                (if "data:image/png".toList.isPrefixOf value.toList then "png" else "jpg") with
              | error e => rfl
              | ok imageData =>
                dsimp only
                cases lib.call (DrawOp.drawImage imageData.image imageData.x imageData.y
                  imageData.width imageData.height) <;> rfl
            | _ => rfl
          · simp only [if_neg h1, if_pos h2, hv, if_true, if_false, Bool.false_eq_true, pure,
              Except.pure]
        · by_cases h3 : field.type = "date"
          · by_cases hv : field.value.truthy = true
            · simp only [if_neg h1, if_neg h2, if_pos h3, hv, if_true, issue, PDFPage.draw,
                bind, Except.bind, pure, Except.pure]
              cases lib.call (DrawOp.drawText field.value field.x
                (bottomLeftY page.height field + field.height - 10) 12 (rgb 0 0 0)) <;> rfl
            · simp only [if_neg h1, if_neg h2, if_pos h3, hv, if_true, if_false,
                Bool.false_eq_true, pure, Except.pure]
          · by_cases h4 : field.type = "radio"
            · by_cases hv : field.value.truthy = true
              · simp only [if_neg h1, if_neg h2, if_neg h3, if_pos h4, hv, if_true, issue,
                  PDFPage.draw, bind, Except.bind, pure, Except.pure]
                cases lib.call (DrawOp.drawCircle (field.x + field.width / 2)
                  (bottomLeftY page.height field + field.height / 2)
                  (JSNum.min field.width field.height / 3) (rgb 0 0 0)) <;> rfl
              · simp only [if_neg h1, if_neg h2, if_neg h3, if_pos h4, hv, if_true, if_false,
                  Bool.false_eq_true, pure, Except.pure]
            · simp only [if_neg h1, if_neg h2, if_neg h3, if_neg h4, pure, Except.pure]

theorem pageIndex_lt (pages : List PDFPage) (n : JSNum) (i : Nat)
    (h : pageIndex pages n = some i) : i < pages.length := by
  unfold pageIndex at h
  cases n with
  | fin q =>
    dsimp only at h
    split at h
    · rename_i hc
      cases h
      exact hc.2.2
    · cases h
  | posInf => cases h
  | negInf => cases h
  | nan => cases h

theorem pageIndex_congr (pages pages2 : List PDFPage) (n : JSNum)
    (h : pages2.length = pages.length) : pageIndex pages2 n = pageIndex pages n := by
  unfold pageIndex
  rw [h]

theorem blankPages_length (pages : List PDFPage) :
    (blankPages pages).length = pages.length := by
  simp [blankPages]

theorem blankPages_get? (pages : List PDFPage) (j : Nat) :
    (blankPages pages).get? j = (pages.get? j).map fun page => { page with ops := [] } := by
  simp [blankPages]

theorem length_eq_of_blankPages (pages pages2 : List PDFPage)
    (h : blankPages pages2 = blankPages pages) : pages2.length = pages.length := by
  rw [← blankPages_length pages2, h, blankPages_length]

theorem blankPages_set_draw (pages : List PDFPage) (i : Nat) (page : PDFPage) (op : DrawOp)
    (hget : pages.get? i = some page) :
    blankPages (pages.set i { page with ops := page.ops ++ [op] }) = blankPages pages := by
  apply List.ext_get?
  intro j
  rw [blankPages_get?, blankPages_get?]
  by_cases hj : i = j
  · subst hj
    have hlt : i < pages.length := by
      rw [List.get?_eq_getElem?] at hget
      exact (List.getElem?_eq_some_iff.1 hget).1
    simp only [List.get?_eq_getElem?] at hget ⊢
    rw [List.getElem?_set_self hlt, hget]
    rfl
  · simp only [List.get?_eq_getElem?]
    rw [List.getElem?_set_ne hj]

theorem blankPages_ops (pages : List PDFPage) (j : Nat) :
    (match (blankPages pages).get? j with
     | some page => page.ops
     | none => []) = [] := by
  rw [blankPages_get?]
  cases pages.get? j <;> rfl

theorem blankPages_idem (pages : List PDFPage) :
    blankPages (blankPages pages) = blankPages pages := by
  simp [blankPages]

/-- Pages that agree up to their recorded calls have a page of the same height
at every position. -/
theorem get?_of_blankPages (pages pages2 : List PDFPage)
    (h : blankPages pages2 = blankPages pages) (i : Nat) (page : PDFPage)
    (hget : pages.get? i = some page) :
    ∃ page2, pages2.get? i = some page2 ∧ page2.width = page.width ∧
      page2.height = page.height := by
  have h1 : (blankPages pages2).get? i = (blankPages pages).get? i := by rw [h]
  rw [blankPages_get?, blankPages_get?, hget] at h1
  cases hget2 : pages2.get? i with
  | none => rw [hget2] at h1; cases h1
  | some page2 =>
    rw [hget2] at h1
    simp only [Option.map, Option.some.injEq, PDFPage.mk.injEq] at h1
    exact ⟨page2, rfl, h1.1, h1.2.1⟩

/-- Whether one iteration throws does not depend on the calls recorded so
far. -/
theorem processField_error_congr (bufferFrom : String → Bytes) (pdfDoc : PDFDocument)
    (lib : PageMethods) (pages pages2 : List PDFPage) (field : Field) (e : String)
    (h : blankPages pages2 = blankPages pages)
    (he : processField bufferFrom pdfDoc lib pages field = .error e) :
    processField bufferFrom pdfDoc lib pages2 field = .error e := by
  rw [processField_eq] at he ⊢
  rw [pageIndex_congr pages pages2 _ (length_eq_of_blankPages pages pages2 h)]
  cases hpi : pageIndex pages (field.page - 1) with
  | none => rw [hpi] at he; cases he
  | some i =>
    rw [hpi] at he
    dsimp only at he ⊢
    cases hget : pages.get? i with
    | none => rw [hget] at he; cases he
    | some page =>
      rw [hget] at he
      dsimp only at he
      obtain ⟨page2, hget2, _, hh⟩ := get?_of_blankPages pages pages2 h i page hget
      rw [hget2]
      dsimp only
      rw [hh]
      cases hop : fieldOp bufferFrom pdfDoc lib page.height field with
      | error e' =>
        rw [hop] at he
        exact he
      | ok o =>
        rw [hop] at he
        cases o <;> cases he

/-- Whether one iteration completes does not depend on the calls recorded so
far. -/
theorem processField_ok_congr (bufferFrom : String → Bytes) (pdfDoc : PDFDocument)
    (lib : PageMethods) (pages pages2 : List PDFPage) (field : Field)
    (h : blankPages pages2 = blankPages pages)
    (hok : ∃ p, processField bufferFrom pdfDoc lib pages field = .ok p) :
    ∃ p2, processField bufferFrom pdfDoc lib pages2 field = .ok p2 := by
  cases h2 : processField bufferFrom pdfDoc lib pages2 field with
  | ok p2 => exact ⟨p2, rfl⟩
  | error e =>
    obtain ⟨p, hp⟩ := hok
    rw [processField_error_congr bufferFrom pdfDoc lib pages2 pages field e h.symm h2] at hp
    cases hp

/-- One iteration leaves the pages as they are, or records exactly one call
on one page, or throws; `drawnBy` is the recorded call, on that page. -/
theorem processField_cases (bufferFrom : String → Bytes) (pdfDoc : PDFDocument)
    (lib : PageMethods) (pages : List PDFPage) (field : Field) :
    (processField bufferFrom pdfDoc lib pages field = .ok pages ∧
      ∀ j, drawnBy bufferFrom pdfDoc lib pages field j = []) ∨
    (∃ i page op, pages.get? i = some page ∧
      processField bufferFrom pdfDoc lib pages field
        = .ok (pages.set i { page with ops := page.ops ++ [op] }) ∧
      ∀ j, drawnBy bufferFrom pdfDoc lib pages field j = if j = i then [op] else []) ∨
    (∃ e, processField bufferFrom pdfDoc lib pages field = .error e) := by
  unfold drawnBy
  rw [processField_eq, processField_eq,
    pageIndex_congr pages (blankPages pages) _ (blankPages_length pages)]
  cases hpi : pageIndex pages (field.page - 1) with
  | none => exact Or.inl ⟨rfl, fun j => blankPages_ops pages j⟩
  | some i =>
    dsimp only
    rw [blankPages_get?]
    cases hget : pages.get? i with
    | none => exact Or.inl ⟨rfl, fun j => blankPages_ops pages j⟩
    | some page =>
      dsimp only [Option.map]
      cases hop : fieldOp bufferFrom pdfDoc lib page.height field with
      | error e => exact Or.inr (Or.inr ⟨e, rfl⟩)
      | ok o =>
        cases o with
        | none => exact Or.inl ⟨rfl, fun j => blankPages_ops pages j⟩
        | some op =>
          refine Or.inr (Or.inl ⟨i, page, op, hget, rfl, fun j => ?_⟩)
          dsimp only
          have hlt : i < (blankPages pages).length := by
            rw [blankPages_length]; exact pageIndex_lt pages _ i hpi
          by_cases hj : j = i
          · subst hj
            simp only [List.get?_eq_getElem?, List.getElem?_set_self hlt, if_true]
            simp
          · simp only [List.get?_eq_getElem?, List.getElem?_set_ne (Ne.symm hj), if_neg hj]
            have := blankPages_ops pages j
            simp only [List.get?_eq_getElem?] at this
            exact this

theorem drawnBy_congr (bufferFrom : String → Bytes) (pdfDoc : PDFDocument)
    (lib : PageMethods) (pages pages2 : List PDFPage) (field : Field) (j : Nat)
    (h : blankPages pages2 = blankPages pages) :
    drawnBy bufferFrom pdfDoc lib pages2 field j
      = drawnBy bufferFrom pdfDoc lib pages field j := by
  unfold drawnBy
  rw [h]

/-- When one iteration completes, it keeps the number and sizes of the pages
and appends to every page the calls `drawnBy` gives for the field. -/
theorem processField_step (bufferFrom : String → Bytes) (pdfDoc : PDFDocument)
    (lib : PageMethods) (pages pages' : List PDFPage) (field : Field)
    (hok : processField bufferFrom pdfDoc lib pages field = .ok pages') :
    pages'.length = pages.length ∧ blankPages pages' = blankPages pages ∧
      ∀ j page, pages.get? j = some page →
        pages'.get? j = some { page with
          ops := page.ops ++ drawnBy bufferFrom pdfDoc lib pages field j } := by
  rcases processField_cases bufferFrom pdfDoc lib pages field with
    ⟨h1, hdr⟩ | ⟨i, pg, op, hget, h1, hdr⟩ | ⟨e, h1⟩
  · rw [h1] at hok
    cases hok
    refine ⟨rfl, rfl, fun j page hj => ?_⟩
    rw [hdr j, hj, List.append_nil]
  · rw [h1] at hok
    cases hok
    refine ⟨List.length_set _ _ _, blankPages_set_draw pages i pg op hget,
      fun j page hj => ?_⟩
    rw [hdr j]
    have hlt : i < pages.length := by
      rw [List.get?_eq_getElem?] at hget
      exact (List.getElem?_eq_some_iff.1 hget).1
    by_cases hji : j = i
    · subst hji
      rw [hget] at hj
      cases hj
      simp only [List.get?_eq_getElem?, List.getElem?_set_self hlt, if_true]
    · simp only [List.get?_eq_getElem?, List.getElem?_set_ne (Ne.symm hji), if_neg hji,
        List.append_nil]
      rw [List.get?_eq_getElem?] at hj
      exact hj
  · rw [h1] at hok
    cases hok

theorem processFields_nil (bufferFrom : String → Bytes) (pdfDoc : PDFDocument)
    (lib : PageMethods) (pages : List PDFPage) :
    processFields bufferFrom pdfDoc lib pages [] = .ok pages := rfl

theorem processFields_cons (bufferFrom : String → Bytes) (pdfDoc : PDFDocument)
    (lib : PageMethods) (pages pages1 : List PDFPage) (field : Field) (rest : List Field)
    (h : processField bufferFrom pdfDoc lib pages field = .ok pages1) :
    processFields bufferFrom pdfDoc lib pages (field :: rest)
      = processFields bufferFrom pdfDoc lib pages1 rest := by
  simp only [processFields, List.foldlM, h, bind, Except.bind]

theorem processFields_cons_error (bufferFrom : String → Bytes) (pdfDoc : PDFDocument)
    (lib : PageMethods) (pages : List PDFPage) (field : Field) (rest : List Field)
    (e : String) (h : processField bufferFrom pdfDoc lib pages field = .error e) :
    processFields bufferFrom pdfDoc lib pages (field :: rest) = .error e := by
  simp only [processFields, List.foldlM, h, bind, Except.bind]

/-- When the loop completes, it has kept the number and sizes of the pages and
appended to every page the calls of the fields in list order. -/
theorem processFields_ops (bufferFrom : String → Bytes) (pdfDoc : PDFDocument)
    (lib : PageMethods) (fields : List Field) :
    ∀ pages pages' : List PDFPage,
      processFields bufferFrom pdfDoc lib pages fields = .ok pages' →
      pages'.length = pages.length ∧ blankPages pages' = blankPages pages ∧
      ∀ j page, pages.get? j = some page →
        pages'.get? j = some { page with
          ops := page.ops ++
            fields.flatMap (fun f => drawnBy bufferFrom pdfDoc lib pages f j) } := by
  induction fields with
  | nil =>
    intro pages pages' hok
    rw [processFields_nil] at hok
    cases hok
    refine ⟨rfl, rfl, fun j page hj => ?_⟩
    rw [hj, List.flatMap_nil, List.append_nil]
  | cons f fs ih =>
    intro pages pages' hok
    cases h1 : processField bufferFrom pdfDoc lib pages f with
    | error e =>
      rw [processFields_cons_error bufferFrom pdfDoc lib pages f fs e h1] at hok
      cases hok
    | ok p1 =>
      rw [processFields_cons bufferFrom pdfDoc lib pages p1 f fs h1] at hok
      obtain ⟨hl1, hb1, hops1⟩ := processField_step bufferFrom pdfDoc lib pages p1 f h1
      obtain ⟨hl2, hb2, hops2⟩ := ih p1 pages' hok
      refine ⟨hl2.trans hl1, hb2.trans hb1, fun j page hj => ?_⟩
      rw [hops2 j _ (hops1 j page hj)]
      simp only [List.flatMap_cons, List.append_assoc]
      have hfun : (fun g => drawnBy bufferFrom pdfDoc lib p1 g j)
          = (fun g => drawnBy bufferFrom pdfDoc lib pages g j) :=
        funext fun g => drawnBy_congr bufferFrom pdfDoc lib pages p1 g j hb1
      rw [hfun]

/-- The loop completes when every field completes by itself on the initial
pages. -/
theorem processFields_total (bufferFrom : String → Bytes) (pdfDoc : PDFDocument)
    (lib : PageMethods) (pages : List PDFPage) (fields : List Field) :
    ∀ pages2 : List PDFPage, blankPages pages2 = blankPages pages →
      (∀ f ∈ fields, ∃ p, processField bufferFrom pdfDoc lib pages f = .ok p) →
      ∃ pages', processFields bufferFrom pdfDoc lib pages2 fields = .ok pages' := by
  induction fields with
  | nil => intro pages2 _ _; exact ⟨pages2, rfl⟩
  | cons f fs ih =>
    intro pages2 hb hall
    obtain ⟨p1, h1⟩ := processField_ok_congr bufferFrom pdfDoc lib pages pages2 f hb
      (hall f (List.mem_cons_self _ _))
    rw [processFields_cons bufferFrom pdfDoc lib pages2 p1 f fs h1]
    have hb1 := (processField_step bufferFrom pdfDoc lib pages2 p1 f h1).2.1
    exact ih p1 (hb1.trans hb) (fun g hg => hall g (List.mem_cons_of_mem _ hg))

/-- The loop ends with the error of the first field that throws. -/
theorem processFields_abort (bufferFrom : String → Bytes) (pdfDoc : PDFDocument)
    (lib : PageMethods) (pages : List PDFPage) (field : Field) (post : List Field)
    (e : String) (he : processField bufferFrom pdfDoc lib pages field = .error e)
    (pre : List Field) :
    ∀ pages2 : List PDFPage, blankPages pages2 = blankPages pages →
      (∀ g ∈ pre, ∃ p, processField bufferFrom pdfDoc lib pages g = .ok p) →
      processFields bufferFrom pdfDoc lib pages2 (pre ++ field :: post) = .error e := by
  induction pre with
  | nil =>
    intro pages2 hb _
    exact processFields_cons_error bufferFrom pdfDoc lib pages2 field post e
      (processField_error_congr bufferFrom pdfDoc lib pages pages2 field e hb he)
  | cons g gs ih =>
    intro pages2 hb hall
    obtain ⟨p1, h1⟩ := processField_ok_congr bufferFrom pdfDoc lib pages pages2 g hb
      (hall g (List.mem_cons_self _ _))
    rw [List.cons_append, processFields_cons bufferFrom pdfDoc lib pages2 p1 g _ h1]
    have hb1 := (processField_step bufferFrom pdfDoc lib pages2 p1 g h1).2.1
    exact ih p1 (hb1.trans hb) (fun g' hg => hall g' (List.mem_cons_of_mem _ hg))

/-- A field that leaves every document of `n` pages unchanged can be removed
from the list without changing the outcome of the loop on such a document,
be it the final pages or the error of another field. -/
theorem processFields_skip (bufferFrom : String → Bytes) (pdfDoc : PDFDocument)
    (lib : PageMethods) (field : Field) (n : Nat)
    (hskip : ∀ pages : List PDFPage, pages.length = n →
      processField bufferFrom pdfDoc lib pages field = .ok pages)
    (pre post : List Field) :
    ∀ pages : List PDFPage, pages.length = n →
      processFields bufferFrom pdfDoc lib pages (pre ++ field :: post)
        = processFields bufferFrom pdfDoc lib pages (pre ++ post) := by
  induction pre with
  | nil =>
    intro pages hn
    exact processFields_cons bufferFrom pdfDoc lib pages pages field post (hskip pages hn)
  | cons g gs ih =>
    intro pages hn
    rw [List.cons_append, List.cons_append]
    cases h1 : processField bufferFrom pdfDoc lib pages g with
    | error e =>
      rw [processFields_cons_error bufferFrom pdfDoc lib pages g _ e h1,
        processFields_cons_error bufferFrom pdfDoc lib pages g _ e h1]
    | ok p1 =>
      rw [processFields_cons bufferFrom pdfDoc lib pages p1 g _ h1,
        processFields_cons bufferFrom pdfDoc lib pages p1 g _ h1]
      exact ih p1 ((processField_step bufferFrom pdfDoc lib pages p1 g h1).1.trans hn)

/-- A field for which the `switch` issues no call leaves the pages unchanged. -/
theorem processField_of_fieldOp_none (bufferFrom : String → Bytes) (pdfDoc : PDFDocument)
    (lib : PageMethods) (pages : List PDFPage) (field : Field)
    (h : ∀ pageHeight, fieldOp bufferFrom pdfDoc lib pageHeight field = .ok none) :
    processField bufferFrom pdfDoc lib pages field = .ok pages := by
  rw [processField_eq]
  cases pageIndex pages (field.page - 1) with
  | none => rfl
  | some i =>
    dsimp only
    cases pages.get? i with
    | none => rfl
    | some page =>
      dsimp only
      rw [h page.height]

theorem fieldOp_falsy (bufferFrom : String → Bytes) (pdfDoc : PDFDocument)
    (lib : PageMethods) (pageHeight : JSNum) (field : Field)
    (hval : field.value.truthy = false) :
    fieldOp bufferFrom pdfDoc lib pageHeight field = .ok none := by
  simp only [fieldOp, hval, Bool.false_eq_true, if_false, ite_self]

theorem fieldOp_unknown (bufferFrom : String → Bytes) (pdfDoc : PDFDocument)
    (lib : PageMethods) (pageHeight : JSNum) (field : Field)
    (h1 : field.type ≠ "text") (h2 : field.type ≠ "signature") (h3 : field.type ≠ "image")
    (h4 : field.type ≠ "date") (h5 : field.type ≠ "radio") :
    fieldOp bufferFrom pdfDoc lib pageHeight field = .ok none := by
  have h23 : ¬ (field.type = "signature" ∨ field.type = "image") := by
    rintro (h | h)
    · exact h2 h
    · exact h3 h
  simp only [fieldOp, if_neg h1, if_neg h23, if_neg h4, if_neg h5]

/-- The loop on a list has the same outcome as the loop on the list without
its falsy-valued fields. -/
theorem processFields_filter (bufferFrom : String → Bytes) (pdfDoc : PDFDocument)
    (lib : PageMethods) (fields : List Field) :
    ∀ pages : List PDFPage,
      processFields bufferFrom pdfDoc lib pages fields
        = processFields bufferFrom pdfDoc lib pages
            (fields.filter fun f => f.value.truthy) := by
  induction fields with
  | nil => intro pages; rfl
  | cons f fs ih =>
    intro pages
    cases hv : f.value.truthy with
    | true =>
      rw [List.filter_cons_of_pos (by simpa using hv)]
      cases h1 : processField bufferFrom pdfDoc lib pages f with
      | error e =>
        rw [processFields_cons_error bufferFrom pdfDoc lib pages f _ e h1,
          processFields_cons_error bufferFrom pdfDoc lib pages f _ e h1]
      | ok p1 =>
        rw [processFields_cons bufferFrom pdfDoc lib pages p1 f _ h1,
          processFields_cons bufferFrom pdfDoc lib pages p1 f _ h1]
        exact ih p1
    | false =>
      rw [List.filter_cons_of_neg (by simp [hv]),
        processFields_cons bufferFrom pdfDoc lib pages pages f _
          (processField_of_fieldOp_none bufferFrom pdfDoc lib pages f
            (fun ph => fieldOp_falsy bufferFrom pdfDoc lib ph f hv))]
      exact ih pages

/-- A page number that is not an integer from 1 to the number of pages
selects no page. -/
theorem pageIndex_none_of_page (pages : List PDFPage) (pageNo : JSNum)
    (hpage : ∀ k : ℕ, 1 ≤ k → k ≤ pages.length → pageNo ≠ fin k) :
    pageIndex pages (pageNo - 1) = none := by
  cases pageNo with
  | fin q =>
    rw [one_eq, fin_sub]
    unfold pageIndex
    dsimp only
    rw [if_neg]
    rintro ⟨hden, hnum, hlt⟩
    have hq : q - 1 = (((q - 1).num.toNat : ℕ) : ℚ) := by
      have h1 : ((q - 1).num : ℚ) = q - 1 := (Rat.den_eq_one_iff _).1 hden
      have h2 : (((q - 1).num.toNat : ℕ) : ℤ) = (q - 1).num := Int.toNat_of_nonneg hnum
      rw [← h1]
      exact_mod_cast h2.symm
    refine hpage ((q - 1).num.toNat + 1) (Nat.le_add_left _ _) hlt ?_
    congr 1
    push_cast
    linarith
  | posInf => rfl
  | negInf => rfl
  | nan => rfl

/-- When the embed call throws, `embedImageWithAspectRatio` throws the same
error. -/
theorem embed_error (pdfDoc : PDFDocument) (imageBytes : Bytes) (imageType : String)
    (x y w h : JSNum) (e : String)
    (hfail : (if imageType = "png" then pdfDoc.embedPng imageBytes
      else pdfDoc.embedJpg imageBytes) = .error e) :
    embedImageWithAspectRatio pdfDoc imageBytes x y w h imageType = .error e := by
  unfold embedImageWithAspectRatio
  by_cases ht : imageType = "png" <;>
  · simp only [ht, if_true, if_false] at hfail ⊢
    simp only [hfail, bind, Except.bind]

/-- When the embed call returns an image, `embedImageWithAspectRatio` returns
a rectangle with that image, whatever the numbers are. -/
theorem embed_ok (pdfDoc : PDFDocument) (imageBytes : Bytes) (imageType : String)
    (x y w h : JSNum) (image : PDFImage)
    (hembed : (if imageType = "png" then pdfDoc.embedPng imageBytes
      else pdfDoc.embedJpg imageBytes) = .ok image) :
    ∃ r, embedImageWithAspectRatio pdfDoc imageBytes x y w h imageType = .ok r ∧
      r.image = image := by
  unfold embedImageWithAspectRatio
  by_cases ht : imageType = "png" <;>
  · simp only [ht, if_true, if_false] at hembed ⊢
    simp only [hembed, bind, Except.bind, pure, Except.pure]
    split <;> exact ⟨_, rfl, rfl⟩

/-! ## Images with a degenerate box -/

/-- The image branch of one iteration: for a signature or image field with a
non-empty string value on an existing page, the fitted image is drawn when
embedding and `drawImage` both succeed, and the pages stay unchanged when
either throws. -/
theorem processField_image (bufferFrom : String → Bytes) (pdfDoc : PDFDocument)
    (lib : PageMethods) (pages : List PDFPage) (field : Field) (i : Nat) (page : PDFPage)
    (s : String)
    (hpage : pageIndex pages (field.page - 1) = some i) (hget : pages.get? i = some page)
    (htype : field.type = "signature" ∨ field.type = "image")
    (hval : field.value = .string s) (hs : s ≠ "") :
    processField bufferFrom pdfDoc lib pages field =
      match embedImageWithAspectRatio pdfDoc (bufferFrom (stripDataUri s)) field.x
          (bottomLeftY page.height field) field.width field.height
          (if "data:image/png".toList.isPrefixOf s.toList then "png" else "jpg") with
      | .ok imageData =>
        match lib.call (.drawImage imageData.image imageData.x imageData.y imageData.width
            imageData.height) with
        | .ok _ => .ok (pages.set i { page with ops := page.ops ++
            [.drawImage imageData.image imageData.x imageData.y imageData.width
              imageData.height] })
        | .error _ => .ok pages
      | .error _ => .ok pages := by
  have hne : field.type ≠ "text" := by
    rcases htype with h | h <;> rw [h] <;> decide
  have htr : field.value.truthy = true := by
    rw [hval]
    simp [JSValue.truthy, hs]
  rw [processField_eq, hpage]
  dsimp only
  rw [hget]
  dsimp only
  simp only [fieldOp, if_neg hne, if_pos htype, htr, if_true]
  rw [hval]
  dsimp only
  cases embedImageWithAspectRatio pdfDoc (bufferFrom (stripDataUri s)) field.x
    (bottomLeftY page.height field) field.width field.height
    (if "data:image/png".toList.isPrefixOf s.toList then "png" else "jpg") with
  | error e => rfl
  | ok imageData =>
    dsimp only
    cases lib.call (.drawImage imageData.image imageData.x imageData.y imageData.width
      imageData.height) <;> rfl

/-- Claim C9, counterexample: with box height 0 (box `(10, 20, 150, 0)`, the
payload a valid PNG of 2 by 1 pixels, a document that embeds it as such)
`embedImageWithAspectRatio` does not fail but returns the rectangle
`(85, 20, 0, 0)`, and for such an image field on a 612x792 page the loop calls
`drawImage` with `(85, 772, 0, 0)` instead of skipping the field. The same
rectangle comes out on doubles. -/
theorem degenerate_fit_counterexample :
    embedImageWithAspectRatio (docAccepting ⟨fin 2, fin 1⟩) [] (fin 10) (fin 20)
        (fin 150) (fin 0) "png"
      = .ok { image := ⟨fin 2, fin 1⟩, x := fin 85, y := fin 20,
              width := fin 0, height := fin 0 } ∧
    (¬ ∃ e, embedImageWithAspectRatio (docAccepting ⟨fin 2, fin 1⟩) [] (fin 10) (fin 20)
        (fin 150) (fin 0) "png" = .error e) ∧
    processField (fun _ => []) (docAccepting ⟨fin 2, fin 1⟩) libChecking
        [⟨fin 612, fin 792, []⟩]
        ⟨"1", "image", fin 10, fin 20, fin 150, fin 0, .string samplePng, fin 1⟩
      = .ok [⟨fin 612, fin 792,
          [.drawImage ⟨fin 2, fin 1⟩ (fin 85) (fin 772) (fin 0) (fin 0)]⟩] ∧
    processField (fun _ => []) (docAccepting ⟨fin 2, fin 1⟩) libChecking
        [⟨fin 612, fin 792, []⟩]
        ⟨"1", "image", fin 10, fin 20, fin 150, fin 0, .string samplePng, fin 1⟩
      ≠ .ok [⟨fin 612, fin 792, []⟩] ∧
    F64.embedImageWithAspectRatio ⟨2, 1⟩ 10 772 150 0
      = ⟨85, 772, .finite false 0 0, .finite false 0 0⟩ := by
  have h1 : embedImageWithAspectRatio (docAccepting ⟨fin 2, fin 1⟩) [] (fin 10) (fin 20)
        (fin 150) (fin 0) "png"
      = .ok { image := ⟨fin 2, fin 1⟩, x := fin 85, y := fin 20,
              width := fin 0, height := fin 0 } := by
    simp [embedImageWithAspectRatio, docAccepting, PDFImage.scale, one_eq, zero_eq, ofNat_eq,
      fin_mul, fin_div, fin_div_zero, gt, fin_sub, fin_add, bind, Except.bind, pure,
      Except.pure]
    norm_num
  have h2 : processField (fun _ => []) (docAccepting ⟨fin 2, fin 1⟩) libChecking
        [⟨fin 612, fin 792, []⟩]
        ⟨"1", "image", fin 10, fin 20, fin 150, fin 0, .string samplePng, fin 1⟩
      = .ok [⟨fin 612, fin 792,
          [.drawImage ⟨fin 2, fin 1⟩ (fin 85) (fin 772) (fin 0) (fin 0)]⟩] := by
    have hfit : embedImageWithAspectRatio (docAccepting ⟨fin 2, fin 1⟩) [] (fin 10) (fin 772)
        (fin 150) (fin 0)
        (if "data:image/png".toList.isPrefixOf samplePng.toList then "png" else "jpg")
      = .ok { image := ⟨fin 2, fin 1⟩, x := fin 85, y := fin 772,
              width := fin 0, height := fin 0 } := by
      simp [embedImageWithAspectRatio, docAccepting, PDFImage.scale, one_eq, zero_eq,
        ofNat_eq, fin_mul, fin_div, fin_div_zero, gt, fin_sub, fin_add, bind, Except.bind,
        pure, Except.pure]
      norm_num
    have hY : bottomLeftY (fin 792)
        ⟨"1", "image", fin 10, fin 20, fin 150, fin 0, .string samplePng, fin 1⟩
        = fin 772 := by
      simp [bottomLeftY, fin_sub]
      norm_num
    rw [processField_image (fun _ => []) (docAccepting ⟨fin 2, fin 1⟩) libChecking
      [⟨fin 612, fin 792, []⟩]
      ⟨"1", "image", fin 10, fin 20, fin 150, fin 0, .string samplePng, fin 1⟩
      0 ⟨fin 612, fin 792, []⟩ samplePng (by simp [pageIndex, one_eq, fin_sub]) rfl
      (Or.inr rfl) rfl (by decide)]
    dsimp only
    rw [hY, hfit]
    rfl
  refine ⟨h1, ?_, h2, ?_, by decide!⟩
  · rintro ⟨e, he⟩
    rw [h1] at he
    cases he
  · rw [h2]
    simp

/-- Claim C9, as amended: aspect fitting has no geometry failure and the loop
has no guard for one. For a signature or image field with a non-empty string
value on an existing page whose payload embeds, `embedImageWithAspectRatio`
returns a rectangle with the embedded image whatever the box and image sizes
are, and the loop calls `drawImage` with it: when the library accepts the
call it is appended to the page and the loop goes on with the remaining
fields, and when the library throws, the `catch` leaves the pages unchanged.
On doubles, for a 2x1 image and the box `(10, 772, 150, h)`, `h = +0` gives
the rectangle `(85, 772, 0, 0)` and `h = -0` gives `(10, 734.5, 150, 75)`. -/
theorem degenerate_fit_is_drawn (bufferFrom : String → Bytes) (pdfDoc : PDFDocument)
    (lib : PageMethods) (pages : List PDFPage) (field : Field) (i : Nat) (page : PDFPage)
    (s : String) (image : PDFImage)
    (hpage : pageIndex pages (field.page - 1) = some i) (hget : pages.get? i = some page)
    (htype : field.type = "signature" ∨ field.type = "image")
    (hval : field.value = .string s) (hs : s ≠ "")
    (hembed : (if (if "data:image/png".toList.isPrefixOf s.toList then "png" else "jpg") = "png"
        then pdfDoc.embedPng (bufferFrom (stripDataUri s))
        else pdfDoc.embedJpg (bufferFrom (stripDataUri s))) = .ok image) :
    (∃ r : ImageData,
      embedImageWithAspectRatio pdfDoc (bufferFrom (stripDataUri s)) field.x
          (bottomLeftY page.height field) field.width field.height
          (if "data:image/png".toList.isPrefixOf s.toList then "png" else "jpg") = .ok r ∧
      r.image = image ∧
      (lib.call (.drawImage r.image r.x r.y r.width r.height) = .ok () →
        processField bufferFrom pdfDoc lib pages field
          = .ok (pages.set i { page with
              ops := page.ops ++ [.drawImage r.image r.x r.y r.width r.height] }) ∧
        ∀ rest, processFields bufferFrom pdfDoc lib pages (field :: rest)
          = processFields bufferFrom pdfDoc lib
              (pages.set i { page with
                ops := page.ops ++ [.drawImage r.image r.x r.y r.width r.height] }) rest) ∧
      (∀ e, lib.call (.drawImage r.image r.x r.y r.width r.height) = .error e →
        processField bufferFrom pdfDoc lib pages field = .ok pages)) ∧
    F64.embedImageWithAspectRatio ⟨2, 1⟩ 10 772 150 (.finite false 0 0)
      = ⟨85, 772, .finite false 0 0, .finite false 0 0⟩ ∧
    F64.embedImageWithAspectRatio ⟨2, 1⟩ 10 772 150 (.finite true 0 0)
      = ⟨10, F64.ofRatio 1469 2, 150, 75⟩ := by
  refine ⟨?_, by decide!, by decide!⟩
  obtain ⟨r, hr, himg⟩ := embed_ok pdfDoc (bufferFrom (stripDataUri s))
    (if "data:image/png".toList.isPrefixOf s.toList then "png" else "jpg")
    field.x (bottomLeftY page.height field) field.width field.height image hembed
  have hstep := processField_image bufferFrom pdfDoc lib pages field i page s hpage hget
    htype hval hs
  rw [hr] at hstep
  dsimp only at hstep
  refine ⟨r, hr, himg, ?_, ?_⟩
  · intro hacc
    rw [hacc] at hstep
    exact ⟨hstep, fun rest => processFields_cons bufferFrom pdfDoc lib pages _ field rest hstep⟩
  · intro e herr
    rw [herr] at hstep
    exact hstep

theorem degenerate_fit_is_drawn_witness :
    processField (fun _ => []) (docAccepting ⟨fin 2, fin 1⟩) libChecking
        [⟨fin 612, fin 792, []⟩]
        ⟨"1", "image", fin 10, fin 20, fin 150, fin 0, .string samplePng, fin 1⟩
      = .ok [⟨fin 612, fin 792,
          [.drawImage ⟨fin 2, fin 1⟩ (fin 85) (fin 772) (fin 0) (fin 0)]⟩] := by
  obtain ⟨⟨r, hr, _, hacc, _⟩, _, _⟩ :=
    degenerate_fit_is_drawn (fun _ => []) (docAccepting ⟨fin 2, fin 1⟩) libChecking
      [⟨fin 612, fin 792, []⟩]
      ⟨"1", "image", fin 10, fin 20, fin 150, fin 0, .string samplePng, fin 1⟩
      0 ⟨fin 612, fin 792, []⟩ samplePng ⟨fin 2, fin 1⟩
      (by simp [pageIndex, one_eq, fin_sub]) rfl (Or.inr rfl) rfl (by decide)
      (by simp [docAccepting])
  have hfit : embedImageWithAspectRatio (docAccepting ⟨fin 2, fin 1⟩)
      ((fun _ => []) (stripDataUri samplePng)) (fin 10)
      (bottomLeftY (fin 792)
        ⟨"1", "image", fin 10, fin 20, fin 150, fin 0, .string samplePng, fin 1⟩)
      (fin 150) (fin 0)
      (if "data:image/png".toList.isPrefixOf samplePng.toList then "png" else "jpg")
    = .ok { image := ⟨fin 2, fin 1⟩, x := fin 85, y := fin 772,
            width := fin 0, height := fin 0 } := by
    simp [embedImageWithAspectRatio, docAccepting, bottomLeftY, PDFImage.scale, one_eq,
      zero_eq, ofNat_eq, fin_mul, fin_div, fin_div_zero, gt, fin_sub, fin_add, bind,
      Except.bind, pure, Except.pure]
    norm_num
  have hrr : r = ⟨⟨fin 2, fin 1⟩, fin 85, fin 772, fin 0, fin 0⟩ := by
    have := hr.symm.trans hfit
    cases this
    rfl
  subst hrr
  exact (hacc rfl).1

/-! ## Text, date and radio fields -/

/-- The text and date branches of one iteration: for such a field with a
truthy value on an existing page, `drawText` is called once; the call is
appended to the page when the library returns, and its error leaves the
iteration when it throws. -/
theorem processField_text (bufferFrom : String → Bytes) (pdfDoc : PDFDocument)
    (lib : PageMethods) (pages : List PDFPage) (field : Field) (i : Nat) (page : PDFPage)
    (hpage : pageIndex pages (field.page - 1) = some i) (hget : pages.get? i = some page)
    (htype : field.type = "text" ∨ field.type = "date")
    (hval : field.value.truthy = true) :
    processField bufferFrom pdfDoc lib pages field =
      match lib.call (.drawText field.value field.x
          ((page.height - field.y - field.height) + field.height - 10) 12 (rgb 0 0 0)) with
      | .ok _ => .ok (pages.set i { page with ops := page.ops ++
          [.drawText field.value field.x
            ((page.height - field.y - field.height) + field.height - 10) 12 (rgb 0 0 0)] })
      | .error e => .error e := by
  rw [processField_eq, hpage]
  dsimp only
  rw [hget]
  dsimp only
  have hfo : fieldOp bufferFrom pdfDoc lib page.height field
      = issue lib (.drawText field.value field.x
          ((page.height - field.y - field.height) + field.height - 10) 12 (rgb 0 0 0)) := by
    rcases htype with h | h
    · simp only [fieldOp, if_pos h, hval, if_true, bottomLeftY]
    · have h1 : field.type ≠ "text" := by rw [h]; decide
      have h2 : ¬ (field.type = "signature" ∨ field.type = "image") := by rw [h]; decide
      simp only [fieldOp, if_neg h1, if_neg h2, if_pos h, hval, if_true, bottomLeftY]
  rw [hfo]
  unfold issue
  cases lib.call (.drawText field.value field.x
    ((page.height - field.y - field.height) + field.height - 10) 12 (rgb 0 0 0)) <;> rfl

/-- The radio branch of one iteration: for a radio field with a truthy value
on an existing page, `drawCircle` is called once; the call is appended to the
page when the library returns, and its error leaves the iteration when it
throws. -/
theorem processField_radio (bufferFrom : String → Bytes) (pdfDoc : PDFDocument)
    (lib : PageMethods) (pages : List PDFPage) (field : Field) (i : Nat) (page : PDFPage)
    (hpage : pageIndex pages (field.page - 1) = some i) (hget : pages.get? i = some page)
    (htype : field.type = "radio") (hval : field.value.truthy = true) :
    processField bufferFrom pdfDoc lib pages field =
      match lib.call (.drawCircle (field.x + field.width / 2)
          ((page.height - field.y - field.height) + field.height / 2)
          (JSNum.min field.width field.height / 3) (rgb 0 0 0)) with
      | .ok _ => .ok (pages.set i { page with ops := page.ops ++
          [.drawCircle (field.x + field.width / 2)
            ((page.height - field.y - field.height) + field.height / 2)
            (JSNum.min field.width field.height / 3) (rgb 0 0 0)] })
      | .error e => .error e := by
  rw [processField_eq, hpage]
  dsimp only
  rw [hget]
  dsimp only
  have h1 : field.type ≠ "text" := by rw [htype]; decide
  have h2 : ¬ (field.type = "signature" ∨ field.type = "image") := by rw [htype]; decide
  have h3 : field.type ≠ "date" := by rw [htype]; decide
  have hfo : fieldOp bufferFrom pdfDoc lib page.height field
      = issue lib (.drawCircle (field.x + field.width / 2)
          ((page.height - field.y - field.height) + field.height / 2)
          (JSNum.min field.width field.height / 3) (rgb 0 0 0)) := by
    simp only [fieldOp, if_neg h1, if_neg h2, if_neg h3, if_pos htype, hval, if_true,
      bottomLeftY]
  rw [hfo]
  unfold issue
  cases lib.call (.drawCircle (field.x + field.width / 2)
    ((page.height - field.y - field.height) + field.height / 2)
    (JSNum.min field.width field.height / 3) (rgb 0 0 0)) <;> rfl

theorem pageIndex_first (page : PDFPage) : pageIndex [page] (fin 1 - 1) = some 0 := by
  simp [pageIndex, one_eq, fin_sub]

/-- Claim C10, counterexample: on a 612x792 page the text field
`{x:100, y:100, width:200, height:40, value:"✓"}` draws nothing: the library
cannot encode the text, `drawText` throws, the error is not caught and the
iteration ends with it. The same happens for the date value `"Alice"` with
`height: Infinity`, where the y passed to `drawText` is `NaN`. -/
theorem text_draw_counterexample :
    processField (fun _ => []) docRejecting libChecking [⟨fin 612, fin 792, []⟩]
        ⟨"1", "text", fin 100, fin 100, fin 200, fin 40, .string "✓", fin 1⟩
      = .error "WinAnsi cannot encode the text" ∧
    processField (fun _ => []) docRejecting libChecking [⟨fin 612, fin 792, []⟩]
        ⟨"1", "text", fin 100, fin 100, fin 200, fin 40, .string "✓", fin 1⟩
      ≠ .ok [⟨fin 612, fin 792,
          [.drawText (.string "✓") (fin 100) (fin 682) 12 (rgb 0 0 0)]⟩] ∧
    processField (fun _ => []) docRejecting libChecking [⟨fin 612, fin 792, []⟩]
        ⟨"1", "date", fin 100, fin 100, fin 200, posInf, .string "Alice", fin 1⟩
      = .error "options must be of type number" := by
  have h1 : processField (fun _ => []) docRejecting libChecking [⟨fin 612, fin 792, []⟩]
        ⟨"1", "text", fin 100, fin 100, fin 200, fin 40, .string "✓", fin 1⟩
      = .error "WinAnsi cannot encode the text" := by
    rw [processField_text (fun _ => []) docRejecting libChecking [⟨fin 612, fin 792, []⟩]
      ⟨"1", "text", fin 100, fin 100, fin 200, fin 40, .string "✓", fin 1⟩
      0 ⟨fin 612, fin 792, []⟩ (pageIndex_first _) rfl (Or.inl rfl) (by decide)]
    rfl
  refine ⟨h1, ?_, ?_⟩
  · rw [h1]
    simp
  · rw [processField_text (fun _ => []) docRejecting libChecking [⟨fin 612, fin 792, []⟩]
      ⟨"1", "date", fin 100, fin 100, fin 200, posInf, .string "Alice", fin 1⟩
      0 ⟨fin 612, fin 792, []⟩ (pageIndex_first _) rfl (Or.inr rfl) (by decide)]
    rfl

/-- Claim C10, as amended: for a text or date field with a truthy (non-empty)
value on an existing page the loop calls `drawText` exactly once, with
`field.value` at `(field.x, (pageHeight - field.y - field.height) +
field.height - 10)`, size 12 and colour black, the same call for both types.
When the library accepts the call it is appended to that page; when the
library throws, the error is not caught, nothing is drawn and the iteration
ends with the error. On a 612x792 page the field `{x:100, y:100, width:200,
height:40, value:"Alice"}` is drawn at `(100, 682)` when accepted. -/
theorem text_and_date_draw (bufferFrom : String → Bytes) (pdfDoc : PDFDocument)
    (lib : PageMethods) (pages : List PDFPage) (field : Field) (i : Nat) (page : PDFPage)
    (hpage : pageIndex pages (field.page - 1) = some i) (hget : pages.get? i = some page)
    (htype : field.type = "text" ∨ field.type = "date")
    (hval : field.value.truthy = true) :
    (lib.call (.drawText field.value field.x
        ((page.height - field.y - field.height) + field.height - 10) 12 (rgb 0 0 0)) = .ok () →
      processField bufferFrom pdfDoc lib pages field
        = .ok (pages.set i { page with ops := page.ops ++
            [.drawText field.value field.x
              ((page.height - field.y - field.height) + field.height - 10) 12
              (rgb 0 0 0)] })) ∧
    (∀ e, lib.call (.drawText field.value field.x
        ((page.height - field.y - field.height) + field.height - 10) 12 (rgb 0 0 0))
        = .error e →
      processField bufferFrom pdfDoc lib pages field = .error e) ∧
    (lib.call (.drawText (.string "Alice") (fin 100) (fin 682) 12 (rgb 0 0 0)) = .ok () →
      processField bufferFrom pdfDoc lib [⟨fin 612, fin 792, []⟩]
          ⟨"1", "text", fin 100, fin 100, fin 200, fin 40, .string "Alice", fin 1⟩
        = .ok [⟨fin 612, fin 792,
            [.drawText (.string "Alice") (fin 100) (fin 682) 12 (rgb 0 0 0)]⟩] ∧
      processField bufferFrom pdfDoc lib [⟨fin 612, fin 792, []⟩]
          ⟨"1", "date", fin 100, fin 100, fin 200, fin 40, .string "Alice", fin 1⟩
        = .ok [⟨fin 612, fin 792,
            [.drawText (.string "Alice") (fin 100) (fin 682) 12 (rgb 0 0 0)]⟩]) := by
  have h682 : (fin 792 - fin 100 - fin 40) + fin 40 - 10 = fin 682 := by
    simp [ofNat_eq, fin_sub, fin_add]
    norm_num
  refine ⟨?_, ?_, ?_⟩
  · intro hacc
    rw [processField_text bufferFrom pdfDoc lib pages field i page hpage hget htype hval, hacc]
  · intro e herr
    rw [processField_text bufferFrom pdfDoc lib pages field i page hpage hget htype hval, herr]
  · intro hacc
    constructor
    · rw [processField_text bufferFrom pdfDoc lib [⟨fin 612, fin 792, []⟩]
        ⟨"1", "text", fin 100, fin 100, fin 200, fin 40, .string "Alice", fin 1⟩
        0 ⟨fin 612, fin 792, []⟩ (pageIndex_first _) rfl (Or.inl rfl) (by decide)]
      dsimp only
      rw [h682, hacc]
      rfl
    · rw [processField_text bufferFrom pdfDoc lib [⟨fin 612, fin 792, []⟩]
        ⟨"1", "date", fin 100, fin 100, fin 200, fin 40, .string "Alice", fin 1⟩
        0 ⟨fin 612, fin 792, []⟩ (pageIndex_first _) rfl (Or.inr rfl) (by decide)]
      dsimp only
      rw [h682, hacc]
      rfl

theorem text_and_date_draw_witness :
    processField (fun _ => []) docRejecting libChecking
        [⟨fin 612, fin 792, []⟩, ⟨fin 595, fin 842, [.drawCircle 1 2 3 (rgb 0 0 0)]⟩]
        ⟨"7", "date", fin 50, fin 60, fin 150, fin 40, .string "2024-01-31", fin 2⟩
      = .ok ([⟨fin 612, fin 792, []⟩, ⟨fin 595, fin 842, [.drawCircle 1 2 3 (rgb 0 0 0)]⟩].set 1
          { (⟨fin 595, fin 842, [.drawCircle 1 2 3 (rgb 0 0 0)]⟩ : PDFPage) with
            ops := [.drawCircle 1 2 3 (rgb 0 0 0)] ++
              [.drawText (.string "2024-01-31") (fin 50)
                ((fin 842 - fin 60 - fin 40) + fin 40 - 10) 12 (rgb 0 0 0)] }) ∧
    (processField (fun _ => []) docRejecting libChecking [⟨fin 612, fin 792, []⟩]
        ⟨"1", "text", fin 100, fin 100, fin 200, fin 40, .string "Alice", fin 1⟩
      = .ok [⟨fin 612, fin 792,
          [.drawText (.string "Alice") (fin 100) (fin 682) 12 (rgb 0 0 0)]⟩] ∧
    processField (fun _ => []) docRejecting libChecking [⟨fin 612, fin 792, []⟩]
        ⟨"1", "date", fin 100, fin 100, fin 200, fin 40, .string "Alice", fin 1⟩
      = .ok [⟨fin 612, fin 792,
          [.drawText (.string "Alice") (fin 100) (fin 682) 12 (rgb 0 0 0)]⟩]) :=
  ⟨(text_and_date_draw (fun _ => []) docRejecting libChecking
      [⟨fin 612, fin 792, []⟩, ⟨fin 595, fin 842, [.drawCircle 1 2 3 (rgb 0 0 0)]⟩]
      ⟨"7", "date", fin 50, fin 60, fin 150, fin 40, .string "2024-01-31", fin 2⟩
      1 ⟨fin 595, fin 842, [.drawCircle 1 2 3 (rgb 0 0 0)]⟩
      (by simp [pageIndex, one_eq, fin_sub]; norm_num) rfl (Or.inr rfl) (by decide)).1 rfl,
    (text_and_date_draw (fun _ => []) docRejecting libChecking
      [⟨fin 612, fin 792, []⟩, ⟨fin 595, fin 842, [.drawCircle 1 2 3 (rgb 0 0 0)]⟩]
      ⟨"7", "date", fin 50, fin 60, fin 150, fin 40, .string "2024-01-31", fin 2⟩
      1 ⟨fin 595, fin 842, [.drawCircle 1 2 3 (rgb 0 0 0)]⟩
      (by simp [pageIndex, one_eq, fin_sub]; norm_num) rfl (Or.inr rfl) (by decide)).2.2
      rfl⟩

/-- Claim C11, counterexample: on a 612x792 page the radio field
`{x:0, y:0, width:30, height:Infinity, value:true}` draws nothing: the centre
y is `-Infinity + Infinity = NaN`, `drawCircle` throws, the error is not
caught and the iteration ends with it. -/
theorem radio_draw_counterexample :
    processField (fun _ => []) docRejecting libChecking [⟨fin 612, fin 792, []⟩]
        ⟨"1", "radio", fin 0, fin 0, fin 30, posInf, .bool true, fin 1⟩
      = .error "options must be of type number" ∧
    (¬ ∃ op, processField (fun _ => []) docRejecting libChecking [⟨fin 612, fin 792, []⟩]
        ⟨"1", "radio", fin 0, fin 0, fin 30, posInf, .bool true, fin 1⟩
      = .ok [⟨fin 612, fin 792, [op]⟩]) := by
  have h1 : processField (fun _ => []) docRejecting libChecking [⟨fin 612, fin 792, []⟩]
        ⟨"1", "radio", fin 0, fin 0, fin 30, posInf, .bool true, fin 1⟩
      = .error "options must be of type number" := by
    rw [processField_radio (fun _ => []) docRejecting libChecking [⟨fin 612, fin 792, []⟩]
      ⟨"1", "radio", fin 0, fin 0, fin 30, posInf, .bool true, fin 1⟩
      0 ⟨fin 612, fin 792, []⟩ (pageIndex_first _) rfl rfl rfl]
    rfl
  refine ⟨h1, ?_⟩
  rintro ⟨op, hop⟩
  rw [h1] at hop
  cases hop

/-- Claim C11, as amended: for a radio field with a truthy value on an
existing page the loop calls `drawCircle` exactly once, black, centred at
`(x + width/2, y + height/2)` for the flipped `y = pageHeight - field.y -
field.height`, with radius `min(width, height)/3`. When the library accepts
the call it is appended to that page; when the library throws, the error is
not caught, nothing is drawn and the iteration ends with the error. On a
612x792 page the field `{x:0, y:0, width:30, height:30, value:true}` gives,
when accepted, radius 10 and the centre `(15, 777)`, which is `(15, 15)` from
the box corner `(0, 762)`. -/
theorem radio_draw (bufferFrom : String → Bytes) (pdfDoc : PDFDocument)
    (lib : PageMethods) (pages : List PDFPage) (field : Field) (i : Nat) (page : PDFPage)
    (hpage : pageIndex pages (field.page - 1) = some i) (hget : pages.get? i = some page)
    (htype : field.type = "radio") (hval : field.value.truthy = true) :
    (lib.call (.drawCircle (field.x + field.width / 2)
        ((page.height - field.y - field.height) + field.height / 2)
        (JSNum.min field.width field.height / 3) (rgb 0 0 0)) = .ok () →
      processField bufferFrom pdfDoc lib pages field
        = .ok (pages.set i { page with ops := page.ops ++
            [.drawCircle (field.x + field.width / 2)
              ((page.height - field.y - field.height) + field.height / 2)
              (JSNum.min field.width field.height / 3) (rgb 0 0 0)] })) ∧
    (∀ e, lib.call (.drawCircle (field.x + field.width / 2)
        ((page.height - field.y - field.height) + field.height / 2)
        (JSNum.min field.width field.height / 3) (rgb 0 0 0)) = .error e →
      processField bufferFrom pdfDoc lib pages field = .error e) ∧
    (lib.call (.drawCircle (fin 15) (fin 777) (fin 10) (rgb 0 0 0)) = .ok () →
      processField bufferFrom pdfDoc lib [⟨fin 612, fin 792, []⟩]
          ⟨"1", "radio", fin 0, fin 0, fin 30, fin 30, .bool true, fin 1⟩
        = .ok [⟨fin 612, fin 792, [.drawCircle (fin 15) (fin 777) (fin 10) (rgb 0 0 0)]⟩]) ∧
    bottomLeftY (fin 792) ⟨"1", "radio", fin 0, fin 0, fin 30, fin 30, .bool true, fin 1⟩
      = fin 762 ∧
    fin 0 + fin 15 = fin 15 ∧ fin 762 + fin 15 = fin 777 := by
  refine ⟨?_, ?_, ?_, ?_, ?_, ?_⟩
  · intro hacc
    rw [processField_radio bufferFrom pdfDoc lib pages field i page hpage hget htype hval, hacc]
  · intro e herr
    rw [processField_radio bufferFrom pdfDoc lib pages field i page hpage hget htype hval, herr]
  · intro hacc
    have hx : fin 0 + fin 30 / 2 = fin 15 := by
      simp [ofNat_eq, fin_add, fin_div]
      norm_num
    have hy : (fin 792 - fin 0 - fin 30) + fin 30 / 2 = fin 777 := by
      simp [ofNat_eq, fin_sub, fin_add, fin_div]
      norm_num
    have hr : JSNum.min (fin 30) (fin 30) / 3 = fin 10 := by
      simp [JSNum.min, ofNat_eq, fin_div]
      norm_num
    rw [processField_radio bufferFrom pdfDoc lib [⟨fin 612, fin 792, []⟩]
      ⟨"1", "radio", fin 0, fin 0, fin 30, fin 30, .bool true, fin 1⟩
      0 ⟨fin 612, fin 792, []⟩ (pageIndex_first _) rfl rfl rfl]
    dsimp only
    rw [hx, hy, hr, hacc]
    rfl
  · simp [bottomLeftY, fin_sub]
    norm_num
  · simp [fin_add]
  · simp [fin_add]
    norm_num

theorem radio_draw_witness :
    processField (fun _ => []) docRejecting libChecking
        [⟨fin 612, fin 792, []⟩, ⟨fin 595, fin 842, []⟩]
        ⟨"9", "radio", fin 40, fin 50, fin 30, fin 24, .bool true, fin 2⟩
      = .ok ([⟨fin 612, fin 792, []⟩, ⟨fin 595, fin 842, []⟩].set 1
          { (⟨fin 595, fin 842, []⟩ : PDFPage) with ops := [] ++
            [.drawCircle (fin 40 + fin 30 / 2)
              ((fin 842 - fin 50 - fin 24) + fin 24 / 2)
              (JSNum.min (fin 30) (fin 24) / 3) (rgb 0 0 0)] }) ∧
    processField (fun _ => []) docRejecting libChecking [⟨fin 612, fin 792, []⟩]
        ⟨"1", "radio", fin 0, fin 0, fin 30, fin 30, .bool true, fin 1⟩
      = .ok [⟨fin 612, fin 792, [.drawCircle (fin 15) (fin 777) (fin 10) (rgb 0 0 0)]⟩] :=
  ⟨(radio_draw (fun _ => []) docRejecting libChecking
      [⟨fin 612, fin 792, []⟩, ⟨fin 595, fin 842, []⟩]
      ⟨"9", "radio", fin 40, fin 50, fin 30, fin 24, .bool true, fin 2⟩
      1 ⟨fin 595, fin 842, []⟩
      (by simp [pageIndex, one_eq, fin_sub]; norm_num) rfl rfl rfl).1
      (by
        have hx : fin 40 + fin 30 / 2 = fin 55 := by
          simp [ofNat_eq, fin_add, fin_div]
          norm_num
        have hy : (fin 842 - fin 50 - fin 24) + fin 24 / 2 = fin 780 := by
          simp [ofNat_eq, fin_sub, fin_add, fin_div]
          norm_num
        have hr : JSNum.min (fin 30) (fin 24) / 3 = fin 8 := by
          have hm : JSNum.min (fin 30) (fin 24) = fin 24 := by
            simp [JSNum.min]
            norm_num
          rw [hm, ofNat_eq, fin_div _ _ (by norm_num)]
          norm_num
        show libChecking.call (.drawCircle (fin 40 + fin 30 / 2)
          ((fin 842 - fin 50 - fin 24) + fin 24 / 2)
          (JSNum.min (fin 30) (fin 24) / 3) (rgb 0 0 0)) = .ok ()
        rw [hx, hy, hr]
        rfl),
    (radio_draw (fun _ => []) docRejecting libChecking
      [⟨fin 612, fin 792, []⟩, ⟨fin 595, fin 842, []⟩]
      ⟨"9", "radio", fin 40, fin 50, fin 30, fin 24, .bool true, fin 2⟩
      1 ⟨fin 595, fin 842, []⟩
      (by simp [pageIndex, one_eq, fin_sub]; norm_num) rfl rfl rfl).2.2.1 rfl⟩

/-! ## Empty values, unknown types, missing pages and failing images -/

/-- Claim C12: a field whose value is falsy (empty string, absent, `false`)
makes the loop issue no drawing call, whatever its type, and the loop on any
list gives the same pages as on the list with the falsy-valued fields
removed. -/
theorem empty_value_skipped (bufferFrom : String → Bytes) (pdfDoc : PDFDocument)
    (lib : PageMethods) (pages : List PDFPage) (field : Field) (fields pre post : List Field)
    (hval : field.value.truthy = false) :
    processField bufferFrom pdfDoc lib pages field = .ok pages ∧
    processFields bufferFrom pdfDoc lib pages (pre ++ field :: post)
      = processFields bufferFrom pdfDoc lib pages (pre ++ post) ∧
    processFields bufferFrom pdfDoc lib pages fields
      = processFields bufferFrom pdfDoc lib pages
          (fields.filter fun f => f.value.truthy) := by
  have hskip : ∀ pages2 : List PDFPage,
      processField bufferFrom pdfDoc lib pages2 field = .ok pages2 := fun pages2 =>
    processField_of_fieldOp_none bufferFrom pdfDoc lib pages2 field
      (fun ph => fieldOp_falsy bufferFrom pdfDoc lib ph field hval)
  exact ⟨hskip pages,
    processFields_skip bufferFrom pdfDoc lib field pages.length (fun p _ => hskip p) pre post
      pages rfl,
    processFields_filter bufferFrom pdfDoc lib fields pages⟩

theorem empty_value_skipped_witness :
    processField (fun _ => []) docRejecting libChecking [⟨fin 612, fin 792, []⟩]
        ⟨"2", "text", fin 10, fin 20, fin 200, fin 40, .string "", fin 1⟩
      = .ok [⟨fin 612, fin 792, []⟩] ∧
    processFields (fun _ => []) docRejecting libChecking [⟨fin 612, fin 792, []⟩]
        ([⟨"1", "text", fin 100, fin 100, fin 200, fin 40, .string "Alice", fin 1⟩] ++
          ⟨"2", "text", fin 10, fin 20, fin 200, fin 40, .string "", fin 1⟩ ::
          [⟨"3", "radio", fin 0, fin 0, fin 30, fin 30, .bool false, fin 1⟩])
      = processFields (fun _ => []) docRejecting libChecking [⟨fin 612, fin 792, []⟩]
        ([⟨"1", "text", fin 100, fin 100, fin 200, fin 40, .string "Alice", fin 1⟩] ++
          [⟨"3", "radio", fin 0, fin 0, fin 30, fin 30, .bool false, fin 1⟩]) ∧
    processFields (fun _ => []) docRejecting libChecking [⟨fin 612, fin 792, []⟩]
        [⟨"3", "radio", fin 0, fin 0, fin 30, fin 30, .bool false, fin 1⟩]
      = processFields (fun _ => []) docRejecting libChecking [⟨fin 612, fin 792, []⟩]
        ([⟨"3", "radio", fin 0, fin 0, fin 30, fin 30, .bool false, fin 1⟩].filter
          fun f => f.value.truthy) :=
  empty_value_skipped (fun _ => []) docRejecting libChecking [⟨fin 612, fin 792, []⟩]
    ⟨"2", "text", fin 10, fin 20, fin 200, fin 40, .string "", fin 1⟩
    [⟨"3", "radio", fin 0, fin 0, fin 30, fin 30, .bool false, fin 1⟩]
    [⟨"1", "text", fin 100, fin 100, fin 200, fin 40, .string "Alice", fin 1⟩]
    [⟨"3", "radio", fin 0, fin 0, fin 30, fin 30, .bool false, fin 1⟩]
    (by decide)

/-- Claim C18: a field whose type is none of text, signature, image, date and
radio is neither rejected nor drawn: its iteration returns the pages unchanged
without an error, whatever the value, and the loop has the same outcome as
for the list without that field. -/
theorem unknown_type_skipped (bufferFrom : String → Bytes) (pdfDoc : PDFDocument)
    (lib : PageMethods) (pages : List PDFPage) (field : Field) (pre post : List Field)
    (h1 : field.type ≠ "text") (h2 : field.type ≠ "signature") (h3 : field.type ≠ "image")
    (h4 : field.type ≠ "date") (h5 : field.type ≠ "radio") :
    processField bufferFrom pdfDoc lib pages field = .ok pages ∧
    processFields bufferFrom pdfDoc lib pages (pre ++ field :: post)
      = processFields bufferFrom pdfDoc lib pages (pre ++ post) := by
  have hskip : ∀ pages2 : List PDFPage,
      processField bufferFrom pdfDoc lib pages2 field = .ok pages2 := fun pages2 =>
    processField_of_fieldOp_none bufferFrom pdfDoc lib pages2 field
      (fun ph => fieldOp_unknown bufferFrom pdfDoc lib ph field h1 h2 h3 h4 h5)
  exact ⟨hskip pages,
    processFields_skip bufferFrom pdfDoc lib field pages.length (fun p _ => hskip p) pre post
      pages rfl⟩

theorem unknown_type_skipped_witness :
    processField (fun _ => []) docRejecting libChecking [⟨fin 612, fin 792, []⟩]
        ⟨"4", "checkbox", fin 10, fin 20, fin 30, fin 30, .bool true, fin 1⟩
      = .ok [⟨fin 612, fin 792, []⟩] ∧
    processFields (fun _ => []) docRejecting libChecking [⟨fin 612, fin 792, []⟩]
        ([] ++ ⟨"4", "checkbox", fin 10, fin 20, fin 30, fin 30, .bool true, fin 1⟩ ::
          [⟨"1", "text", fin 100, fin 100, fin 200, fin 40, .string "Alice", fin 1⟩])
      = processFields (fun _ => []) docRejecting libChecking [⟨fin 612, fin 792, []⟩]
        ([] ++ [⟨"1", "text", fin 100, fin 100, fin 200, fin 40, .string "Alice", fin 1⟩]) :=
  unknown_type_skipped (fun _ => []) docRejecting libChecking [⟨fin 612, fin 792, []⟩]
    ⟨"4", "checkbox", fin 10, fin 20, fin 30, fin 30, .bool true, fin 1⟩ []
    [⟨"1", "text", fin 100, fin 100, fin 200, fin 40, .string "Alice", fin 1⟩]
    (by decide) (by decide) (by decide) (by decide) (by decide)

/-- Claim C13: a field whose page is not an integer from 1 to the number of
pages raises no error and issues no drawing call: its iteration returns the
pages unchanged, and the loop has the same outcome as for the list without
that field, so every other field draws what it would draw if the field were
absent. -/
theorem missing_page_skipped (bufferFrom : String → Bytes) (pdfDoc : PDFDocument)
    (lib : PageMethods) (pages : List PDFPage) (field : Field) (pre post : List Field)
    (hpage : ∀ k : ℕ, 1 ≤ k → k ≤ pages.length → field.page ≠ fin k) :
    processField bufferFrom pdfDoc lib pages field = .ok pages ∧
    processFields bufferFrom pdfDoc lib pages (pre ++ field :: post)
      = processFields bufferFrom pdfDoc lib pages (pre ++ post) := by
  have hskip : ∀ pages2 : List PDFPage, pages2.length = pages.length →
      processField bufferFrom pdfDoc lib pages2 field = .ok pages2 := by
    intro pages2 hl
    rw [processField_eq, pageIndex_congr pages pages2 _ hl,
      pageIndex_none_of_page pages field.page hpage]
  exact ⟨hskip pages rfl,
    processFields_skip bufferFrom pdfDoc lib field pages.length hskip pre post pages rfl⟩

theorem missing_page_skipped_witness :
    processField (fun _ => []) docRejecting libChecking [⟨fin 612, fin 792, []⟩]
        ⟨"5", "text", fin 10, fin 20, fin 200, fin 40, .string "Bob", fin 2⟩
      = .ok [⟨fin 612, fin 792, []⟩] ∧
    processFields (fun _ => []) docRejecting libChecking [⟨fin 612, fin 792, []⟩]
        ([⟨"1", "text", fin 100, fin 100, fin 200, fin 40, .string "Alice", fin 1⟩] ++
          ⟨"5", "text", fin 10, fin 20, fin 200, fin 40, .string "Bob", fin 2⟩ ::
          [⟨"3", "radio", fin 0, fin 0, fin 30, fin 30, .bool true, fin 1⟩])
      = processFields (fun _ => []) docRejecting libChecking [⟨fin 612, fin 792, []⟩]
        ([⟨"1", "text", fin 100, fin 100, fin 200, fin 40, .string "Alice", fin 1⟩] ++
          [⟨"3", "radio", fin 0, fin 0, fin 30, fin 30, .bool true, fin 1⟩]) :=
  missing_page_skipped (fun _ => []) docRejecting libChecking [⟨fin 612, fin 792, []⟩]
    ⟨"5", "text", fin 10, fin 20, fin 200, fin 40, .string "Bob", fin 2⟩
    [⟨"1", "text", fin 100, fin 100, fin 200, fin 40, .string "Alice", fin 1⟩]
    [⟨"3", "radio", fin 0, fin 0, fin 30, fin 30, .bool true, fin 1⟩]
    (by
      intro k hk1 hk2 h
      have hk : k = 1 := le_antisymm (by simpa using hk2) hk1
      subst hk
      have h' : (2 : ℚ) = ((1 : ℕ) : ℚ) := by injection h
      norm_num at h')

/-- Claim C15: for a signature or image field whose payload cannot be decoded
(its value is not a string, so `value.replace` throws) or embedded (the embed
call for its bytes throws), the failure is caught at the field: its iteration
returns the pages unchanged without an error, and the loop has the same
outcome as for the list without that field, so the later fields are processed
as if it were absent. -/
theorem image_failure_caught (bufferFrom : String → Bytes) (pdfDoc : PDFDocument)
    (lib : PageMethods) (pages : List PDFPage) (field : Field) (pre post : List Field)
    (htype : field.type = "signature" ∨ field.type = "image")
    (hfail : ∀ s, field.value = .string s → ∃ e,
      (if (if "data:image/png".toList.isPrefixOf s.toList then "png" else "jpg") = "png"
        then pdfDoc.embedPng (bufferFrom (stripDataUri s))
        else pdfDoc.embedJpg (bufferFrom (stripDataUri s))) = .error e) :
    processField bufferFrom pdfDoc lib pages field = .ok pages ∧
    processFields bufferFrom pdfDoc lib pages (pre ++ field :: post)
      = processFields bufferFrom pdfDoc lib pages (pre ++ post) := by
  have hne : field.type ≠ "text" := by
    rcases htype with h | h <;> rw [h] <;> decide
  have hop : ∀ ph, fieldOp bufferFrom pdfDoc lib ph field = .ok none := by
    intro ph
    simp only [fieldOp, if_neg hne, if_pos htype]
    cases hval : field.value with
    | string s =>
      obtain ⟨e, he⟩ := hfail s hval
      dsimp only
      rw [embed_error pdfDoc _ _ _ _ _ _ e he]
      simp only [ite_self]
    | _ => simp only [ite_self]
  have hskip : ∀ pages2 : List PDFPage,
      processField bufferFrom pdfDoc lib pages2 field = .ok pages2 := fun pages2 =>
    processField_of_fieldOp_none bufferFrom pdfDoc lib pages2 field hop
  exact ⟨hskip pages,
    processFields_skip bufferFrom pdfDoc lib field pages.length (fun p _ => hskip p) pre post
      pages rfl⟩

theorem image_failure_caught_witness :
    processField (fun _ => []) docRejecting libChecking [⟨fin 612, fin 792, []⟩]
        ⟨"6", "signature", fin 10, fin 20, fin 200, fin 80,
          .string "data:image/png;base64,@@@", fin 1⟩
      = .ok [⟨fin 612, fin 792, []⟩] ∧
    processFields (fun _ => []) docRejecting libChecking [⟨fin 612, fin 792, []⟩]
        ([] ++ ⟨"6", "signature", fin 10, fin 20, fin 200, fin 80,
          .string "data:image/png;base64,@@@", fin 1⟩ ::
          [⟨"1", "text", fin 100, fin 100, fin 200, fin 40, .string "Alice", fin 1⟩])
      = processFields (fun _ => []) docRejecting libChecking [⟨fin 612, fin 792, []⟩]
        ([] ++ [⟨"1", "text", fin 100, fin 100, fin 200, fin 40, .string "Alice", fin 1⟩]) :=
  image_failure_caught (fun _ => []) docRejecting libChecking [⟨fin 612, fin 792, []⟩]
    ⟨"6", "signature", fin 10, fin 20, fin 200, fin 80,
      .string "data:image/png;base64,@@@", fin 1⟩ []
    [⟨"1", "text", fin 100, fin 100, fin 200, fin 40, .string "Alice", fin 1⟩]
    (Or.inl rfl)
    (by
      intro s _
      by_cases h : (if "data:image/png".toList.isPrefixOf s.toList then "png" else "jpg") = "png"
      · exact ⟨"not a PNG", by simp only [if_pos h, docRejecting]⟩
      · exact ⟨"not a JPEG", by simp only [if_neg h, docRejecting]⟩)

/-! ## List order -/

theorem processField_alice (ops : List DrawOp) :
    processField (fun _ => []) docRejecting libChecking [⟨fin 612, fin 792, ops⟩]
        ⟨"1", "text", fin 100, fin 100, fin 200, fin 40, .string "Alice", fin 1⟩
      = .ok [⟨fin 612, fin 792,
          ops ++ [.drawText (.string "Alice") (fin 100) (fin 682) 12 (rgb 0 0 0)]⟩] := by
  have h682 : (fin 792 - fin 100 - fin 40) + fin 40 - 10 = fin 682 := by
    simp [ofNat_eq, fin_sub, fin_add]
    norm_num
  rw [processField_text (fun _ => []) docRejecting libChecking [⟨fin 612, fin 792, ops⟩]
    ⟨"1", "text", fin 100, fin 100, fin 200, fin 40, .string "Alice", fin 1⟩
    0 ⟨fin 612, fin 792, ops⟩ (pageIndex_first _) rfl (Or.inl rfl) (by decide)]
  dsimp only
  rw [h682]
  rfl

theorem processField_dot (ops : List DrawOp) :
    processField (fun _ => []) docRejecting libChecking [⟨fin 612, fin 792, ops⟩]
        ⟨"3", "radio", fin 0, fin 0, fin 30, fin 30, .bool true, fin 1⟩
      = .ok [⟨fin 612, fin 792,
          ops ++ [.drawCircle (fin 15) (fin 777) (fin 10) (rgb 0 0 0)]⟩] := by
  have hx : fin 0 + fin 30 / 2 = fin 15 := by
    simp [ofNat_eq, fin_add, fin_div]
    norm_num
  have hy : (fin 792 - fin 0 - fin 30) + fin 30 / 2 = fin 777 := by
    simp [ofNat_eq, fin_sub, fin_add, fin_div]
    norm_num
  have hr : JSNum.min (fin 30) (fin 30) / 3 = fin 10 := by
    simp [JSNum.min, ofNat_eq, fin_div]
    norm_num
  rw [processField_radio (fun _ => []) docRejecting libChecking [⟨fin 612, fin 792, ops⟩]
    ⟨"3", "radio", fin 0, fin 0, fin 30, fin 30, .bool true, fin 1⟩
    0 ⟨fin 612, fin 792, ops⟩ (pageIndex_first _) rfl rfl rfl]
  dsimp only
  rw [hx, hy, hr]
  rfl

theorem processField_check (ops : List DrawOp) :
    processField (fun _ => []) docRejecting libChecking [⟨fin 612, fin 792, ops⟩]
        ⟨"2", "text", fin 10, fin 20, fin 200, fin 40, .string "✓", fin 1⟩
      = .error "WinAnsi cannot encode the text" := by
  rw [processField_text (fun _ => []) docRejecting libChecking [⟨fin 612, fin 792, ops⟩]
    ⟨"2", "text", fin 10, fin 20, fin 200, fin 40, .string "✓", fin 1⟩
    0 ⟨fin 612, fin 792, ops⟩ (pageIndex_first _) rfl (Or.inl rfl) (by decide)]
  rfl

/-- On one 612x792 page a text field followed by a radio field leaves
`drawText` then `drawCircle`, the opposite order leaves the opposite
sequence, and `drawnBy` gives each field its own call. -/
theorem processFields_two_orders :
    processFields (fun _ => []) docRejecting libChecking [⟨fin 612, fin 792, []⟩]
        [⟨"1", "text", fin 100, fin 100, fin 200, fin 40, .string "Alice", fin 1⟩,
         ⟨"3", "radio", fin 0, fin 0, fin 30, fin 30, .bool true, fin 1⟩]
      = .ok [⟨fin 612, fin 792,
          [.drawText (.string "Alice") (fin 100) (fin 682) 12 (rgb 0 0 0),
           .drawCircle (fin 15) (fin 777) (fin 10) (rgb 0 0 0)]⟩] ∧
    processFields (fun _ => []) docRejecting libChecking [⟨fin 612, fin 792, []⟩]
        [⟨"3", "radio", fin 0, fin 0, fin 30, fin 30, .bool true, fin 1⟩,
         ⟨"1", "text", fin 100, fin 100, fin 200, fin 40, .string "Alice", fin 1⟩]
      = .ok [⟨fin 612, fin 792,
          [.drawCircle (fin 15) (fin 777) (fin 10) (rgb 0 0 0),
           .drawText (.string "Alice") (fin 100) (fin 682) 12 (rgb 0 0 0)]⟩] ∧
    drawnBy (fun _ => []) docRejecting libChecking [⟨fin 612, fin 792, []⟩]
        ⟨"1", "text", fin 100, fin 100, fin 200, fin 40, .string "Alice", fin 1⟩ 0
      = [.drawText (.string "Alice") (fin 100) (fin 682) 12 (rgb 0 0 0)] ∧
    drawnBy (fun _ => []) docRejecting libChecking [⟨fin 612, fin 792, []⟩]
        ⟨"3", "radio", fin 0, fin 0, fin 30, fin 30, .bool true, fin 1⟩ 0
      = [.drawCircle (fin 15) (fin 777) (fin 10) (rgb 0 0 0)] := by
  have hb : blankPages [⟨fin 612, fin 792, []⟩] = [⟨fin 612, fin 792, []⟩] := rfl
  refine ⟨?_, ?_, ?_, ?_⟩
  · rw [processFields_cons _ _ _ _ _ _ _ (processField_alice []),
      processFields_cons _ _ _ _ _ _ _ (processField_dot _)]
    rfl
  · rw [processFields_cons _ _ _ _ _ _ _ (processField_dot []),
      processFields_cons _ _ _ _ _ _ _ (processField_alice _)]
    rfl
  · simp only [drawnBy, hb, processField_alice []]
    rfl
  · simp only [drawnBy, hb, processField_dot []]
    rfl

/-- Claim C14, counterexample: for the list of a text field with the value
`"✓"` followed by a text field with the value `"Alice"` on one 612x792 page,
the loop does not leave the concatenation of the fields' calls on the page:
`drawText` throws for the first field, the loop ends with that error and the
second field is never processed. -/
theorem painter_order_counterexample :
    processFields (fun _ => []) docRejecting libChecking [⟨fin 612, fin 792, []⟩]
        [⟨"2", "text", fin 10, fin 20, fin 200, fin 40, .string "✓", fin 1⟩,
         ⟨"1", "text", fin 100, fin 100, fin 200, fin 40, .string "Alice", fin 1⟩]
      = .error "WinAnsi cannot encode the text" ∧
    (¬ ∃ pages', processFields (fun _ => []) docRejecting libChecking
        [⟨fin 612, fin 792, []⟩]
        [⟨"2", "text", fin 10, fin 20, fin 200, fin 40, .string "✓", fin 1⟩,
         ⟨"1", "text", fin 100, fin 100, fin 200, fin 40, .string "Alice", fin 1⟩]
      = .ok pages') ∧
    processFields (fun _ => []) docRejecting libChecking [⟨fin 612, fin 792, []⟩]
        [⟨"1", "text", fin 100, fin 100, fin 200, fin 40, .string "Alice", fin 1⟩]
      = .ok [⟨fin 612, fin 792,
          [.drawText (.string "Alice") (fin 100) (fin 682) 12 (rgb 0 0 0)]⟩] := by
  have h1 := processFields_cons_error (fun _ => []) docRejecting libChecking
    [⟨fin 612, fin 792, []⟩]
    ⟨"2", "text", fin 10, fin 20, fin 200, fin 40, .string "✓", fin 1⟩
    [⟨"1", "text", fin 100, fin 100, fin 200, fin 40, .string "Alice", fin 1⟩]
    "WinAnsi cannot encode the text" (processField_check [])
  refine ⟨h1, ?_, ?_⟩
  · rintro ⟨pages', h⟩
    rw [h1] at h
    cases h
  · rw [processFields_cons _ _ _ _ _ _ _ (processField_alice [])]
    rfl

/-- Claim C14, as amended: the loop processes the fields in list order. When
no field's own drawing call throws, the loop completes, keeps the number of
pages, and every page ends with its earlier calls followed by the calls of the
individual fields for that page (`drawnBy`), concatenated in list order; so
for a list `pre ++ post` the calls of `post` come after those of `pre`. When
a field's call throws and the fields before it complete, the loop ends with
that error and no later field is processed. -/
theorem painter_order (bufferFrom : String → Bytes) (pdfDoc : PDFDocument)
    (lib : PageMethods) (pages : List PDFPage) (pre post : List Field) (j : Nat)
    (page : PDFPage) (hj : pages.get? j = some page)
    (hall : ∀ f ∈ pre ++ post, ∃ p, processField bufferFrom pdfDoc lib pages f = .ok p) :
    (∃ pages', processFields bufferFrom pdfDoc lib pages (pre ++ post) = .ok pages' ∧
      pages'.length = pages.length ∧
      pages'.get? j = some { page with
        ops := page.ops ++
          (pre ++ post).flatMap (fun f => drawnBy bufferFrom pdfDoc lib pages f j) } ∧
      pages'.get? j = some { page with
        ops := page.ops ++ (pre.flatMap (fun f => drawnBy bufferFrom pdfDoc lib pages f j) ++
          post.flatMap (fun f => drawnBy bufferFrom pdfDoc lib pages f j)) }) ∧
    (∀ (f : Field) (rest : List Field) (e : String),
      processField bufferFrom pdfDoc lib pages f = .error e →
      processFields bufferFrom pdfDoc lib pages (pre ++ post ++ f :: rest) = .error e) := by
  constructor
  · obtain ⟨pages', hok⟩ := processFields_total bufferFrom pdfDoc lib pages (pre ++ post)
      pages rfl hall
    obtain ⟨hl, _, hops⟩ := processFields_ops bufferFrom pdfDoc lib (pre ++ post) pages pages'
      hok
    refine ⟨pages', hok, hl, hops j page hj, ?_⟩
    rw [hops j page hj, List.flatMap_append]
  · intro f rest e he
    exact processFields_abort bufferFrom pdfDoc lib pages f rest e he (pre ++ post) pages rfl
      hall

theorem painter_order_witness :
    (∃ pages', processFields (fun _ => []) docRejecting libChecking
        [⟨fin 612, fin 792, [.drawCircle 1 2 3 (rgb 0 0 0)]⟩]
        ([⟨"1", "text", fin 100, fin 100, fin 200, fin 40, .string "Alice", fin 1⟩] ++
          [⟨"3", "radio", fin 0, fin 0, fin 30, fin 30, .bool true, fin 1⟩]) = .ok pages' ∧
      pages'.length = [(⟨fin 612, fin 792, [.drawCircle 1 2 3 (rgb 0 0 0)]⟩ : PDFPage)].length ∧
      pages'.get? 0 = some { (⟨fin 612, fin 792, [.drawCircle 1 2 3 (rgb 0 0 0)]⟩ : PDFPage) with
        ops := [.drawCircle 1 2 3 (rgb 0 0 0)] ++
          ([(⟨"1", "text", fin 100, fin 100, fin 200, fin 40, .string "Alice", fin 1⟩ : Field)] ++
           [(⟨"3", "radio", fin 0, fin 0, fin 30, fin 30, .bool true, fin 1⟩ : Field)]).flatMap
            (fun f => drawnBy (fun _ => []) docRejecting libChecking
              [⟨fin 612, fin 792, [.drawCircle 1 2 3 (rgb 0 0 0)]⟩] f 0) } ∧
      pages'.get? 0 = some { (⟨fin 612, fin 792, [.drawCircle 1 2 3 (rgb 0 0 0)]⟩ : PDFPage) with
        ops := [.drawCircle 1 2 3 (rgb 0 0 0)] ++
          ([(⟨"1", "text", fin 100, fin 100, fin 200, fin 40, .string "Alice", fin 1⟩ :
              Field)].flatMap
            (fun f => drawnBy (fun _ => []) docRejecting libChecking
              [⟨fin 612, fin 792, [.drawCircle 1 2 3 (rgb 0 0 0)]⟩] f 0) ++
           [(⟨"3", "radio", fin 0, fin 0, fin 30, fin 30, .bool true, fin 1⟩ : Field)].flatMap
            (fun f => drawnBy (fun _ => []) docRejecting libChecking
              [⟨fin 612, fin 792, [.drawCircle 1 2 3 (rgb 0 0 0)]⟩] f 0)) }) ∧
    processFields (fun _ => []) docRejecting libChecking
        [⟨fin 612, fin 792, [.drawCircle 1 2 3 (rgb 0 0 0)]⟩]
        ([⟨"1", "text", fin 100, fin 100, fin 200, fin 40, .string "Alice", fin 1⟩] ++
          [⟨"3", "radio", fin 0, fin 0, fin 30, fin 30, .bool true, fin 1⟩] ++
          ⟨"2", "text", fin 10, fin 20, fin 200, fin 40, .string "✓", fin 1⟩ ::
          [⟨"1", "text", fin 100, fin 100, fin 200, fin 40, .string "Alice", fin 1⟩])
      = .error "WinAnsi cannot encode the text" :=
  have h := painter_order (fun _ => []) docRejecting libChecking
    [⟨fin 612, fin 792, [.drawCircle 1 2 3 (rgb 0 0 0)]⟩]
    [⟨"1", "text", fin 100, fin 100, fin 200, fin 40, .string "Alice", fin 1⟩]
    [⟨"3", "radio", fin 0, fin 0, fin 30, fin 30, .bool true, fin 1⟩]
    0 ⟨fin 612, fin 792, [.drawCircle 1 2 3 (rgb 0 0 0)]⟩ rfl
    (by
      intro f hf
      simp only [List.cons_append, List.nil_append, List.mem_cons, List.mem_singleton,
        List.not_mem_nil, or_false] at hf
      rcases hf with h | h
      · subst h
        exact Exists.intro _ (processField_alice _)
      · subst h
        exact Exists.intro _ (processField_dot _))
  ⟨h.1, h.2 ⟨"2", "text", fin 10, fin 20, fin 200, fin 40, .string "✓", fin 1⟩
    [⟨"1", "text", fin 100, fin 100, fin 200, fin 40, .string "Alice", fin 1⟩]
    "WinAnsi cannot encode the text" (processField_check _)⟩

/-! ## The unused `pdfHeight` parameter -/

/-- Claim C17: the results of `browserToPdfCoords` and `pdfToBrowserCoords` do
not depend on `pdfHeight`; the returned y of `browserToPdfCoords` is
`pixelsToPoints(containerHeight - y, scale)`; and for finite values and a
non-zero scale it equals `pdfHeight - pixelsToPoints(y, scale)` exactly when
`pixelsToPoints(containerHeight, scale) = pdfHeight`. -/
theorem pdfHeight_unused (x y c s h1 h2 : JSNum) (yq cq hq sq : ℚ) (hs : sq ≠ 0) :
    browserToPdfCoords x y h1 c s = browserToPdfCoords x y h2 c s ∧
    pdfToBrowserCoords x y h1 c s = pdfToBrowserCoords x y h2 c s ∧
    (browserToPdfCoords x y h1 c s).y = pixelsToPoints (c - y) s ∧
    ((browserToPdfCoords x (fin yq) (fin hq) (fin cq) (fin sq)).y
        = fin hq - pixelsToPoints (fin yq) (fin sq) ↔
      pixelsToPoints (fin cq) (fin sq) = fin hq) := by
  refine ⟨rfl, rfl, rfl, ?_⟩
  simp only [browserToPdfCoords, fin_sub, pixelsToPoints_fin _ sq hs, JSNum.fin.injEq]
  constructor
  · intro h
    field_simp at h ⊢
    linarith
  · intro h
    field_simp at h ⊢
    linarith

theorem pdfHeight_unused_witness :
    (2 : ℚ) ≠ 0 ∧
    (browserToPdfCoords (fin 10) (fin 20) (fin 792) (fin 1056) (fin 2)
      = browserToPdfCoords (fin 10) (fin 20) (fin 0) (fin 1056) (fin 2) ∧
    pdfToBrowserCoords (fin 10) (fin 20) (fin 792) (fin 1056) (fin 2)
      = pdfToBrowserCoords (fin 10) (fin 20) (fin 0) (fin 1056) (fin 2) ∧
    (browserToPdfCoords (fin 10) (fin 20) (fin 792) (fin 1056) (fin 2)).y
      = pixelsToPoints (fin 1056 - fin 20) (fin 2) ∧
    ((browserToPdfCoords (fin 10) (fin 20) (fin 792) (fin 1056) (fin 2)).y
        = fin 792 - pixelsToPoints (fin 20) (fin 2) ↔
      pixelsToPoints (fin 1056) (fin 2) = fin 792)) :=
  ⟨by norm_num,
    pdfHeight_unused (fin 10) (fin 20) (fin 1056) (fin 2) (fin 792) (fin 0) 20 1056 792 2
      (by norm_num)⟩


/-! ## What the code returns on doubles -/

/-- Claim C1, counterexample: on doubles the round trip is not the identity.
`pointsToPixels(pixelsToPoints(7, 3), 3)` is `6.999999999999999`, not `7`; for
the subnormal `p = 1e-323` and scale 1 the round trip gives `1.5e-323`, a
relative error of one half, far above `1e-9`; and for the point value
`q = 1.5e308` and scale 1 `pointsToPixels` overflows to `Infinity`, so the
way back gives `Infinity`. -/
theorem pixel_point_roundtrip_counterexample :
    F64.pointsToPixels (F64.pixelsToPoints 7 3) 3 = .finite false 7881299347898367 (-50) ∧
    (7 : F64) = .finite false 7881299347898368 (-50) ∧
    F64.pointsToPixels (F64.pixelsToPoints 7 3) 3 ≠ 7 ∧
    F64.ofRatio 1 (10 ^ 323) = .finite false 2 (-1074) ∧
    F64.pointsToPixels (F64.pixelsToPoints (F64.ofRatio 1 (10 ^ 323)) 1) 1
      = .finite false 3 (-1074) ∧
    (1 / 10 ^ 9 : ℚ) * |F64.toRat (.finite false 2 (-1074))|
      < |F64.toRat (.finite false 3 (-1074)) - F64.toRat (.finite false 2 (-1074))| ∧
    F64.ofRatio (15 * 10 ^ 307) 1 = .finite false 7515631350033648 971 ∧
    F64.pointsToPixels (F64.ofRatio (15 * 10 ^ 307) 1) 1 = .inf false ∧
    F64.pixelsToPoints (F64.pointsToPixels (F64.ofRatio (15 * 10 ^ 307) 1) 1) 1
      = .inf false := by
  refine ⟨by decide!, by decide!, by decide!, by decide!, by decide!, ?_, by decide!,
    by decide!, by decide!⟩
  have hc : (0 : ℚ) < (2 : ℚ) ^ (-1074 : ℤ) := by positivity
  have h3 : F64.toRat (.finite false 3 (-1074)) = 3 * (2 : ℚ) ^ (-1074 : ℤ) := by
    simp [F64.toRat]
  have h2 : F64.toRat (.finite false 2 (-1074)) = 2 * (2 : ℚ) ^ (-1074 : ℤ) := by
    simp [F64.toRat]
  rw [h3, h2]
  have e1 : 3 * (2 : ℚ) ^ (-1074 : ℤ) - 2 * (2 : ℚ) ^ (-1074 : ℤ) = (2 : ℚ) ^ (-1074 : ℤ) := by
    ring
  rw [e1, abs_of_pos hc, abs_of_pos (by positivity)]
  nlinarith

/-- Claim C2, counterexample: on doubles `pdfToBrowserCoords` does not undo
`browserToPdfCoords`. For `x = 10`, `y = 1e-6`, `pdfHeight = 792`,
`containerHeight = 1056` and scale `1.5` the y that comes back is
`1.0000001111620804e-6`, not `1e-6`. -/
theorem pdfToBrowser_browserToPdf_counterexample :
    F64.pdfToBrowserCoords
        (F64.browserToPdfCoords 10 (F64.ofRatio 1 (10 ^ 6)) 792 1056 (F64.ofRatio 3 2)).x
        (F64.browserToPdfCoords 10 (F64.ofRatio 1 (10 ^ 6)) 792 1056 (F64.ofRatio 3 2)).y
        792 1056 (F64.ofRatio 3 2)
      = ⟨10, .finite false 4722367007817728 (-72)⟩ ∧
    F64.ofRatio 1 (10 ^ 6) = .finite false 4722366482869645 (-72) ∧
    F64.pdfToBrowserCoords
        (F64.browserToPdfCoords 10 (F64.ofRatio 1 (10 ^ 6)) 792 1056 (F64.ofRatio 3 2)).x
        (F64.browserToPdfCoords 10 (F64.ofRatio 1 (10 ^ 6)) 792 1056 (F64.ofRatio 3 2)).y
        792 1056 (F64.ofRatio 3 2)
      ≠ ⟨10, F64.ofRatio 1 (10 ^ 6)⟩ := by
  refine ⟨by decide!, by decide!, by decide!⟩

/-- Claim C5, counterexample: on doubles a 7x25 image fitted into the box
`(0, 0, 7, 25)` gets the width `7.000000000000001`, more than the box width 7,
and the x `-4.4e-16`, left of the box. -/
theorem embed_inside_box_counterexample :
    F64.embedImageWithAspectRatio ⟨7, 25⟩ 0 0 7 25
      = ⟨.finite true 4503599627370496 (-103), .finite false 0 0,
         .finite false 7881299347898369 (-50), 25⟩ ∧
    F64.gt (F64.embedImageWithAspectRatio ⟨7, 25⟩ 0 0 7 25).width 7 = true ∧
    F64.gt 0 (F64.embedImageWithAspectRatio ⟨7, 25⟩ 0 0 7 25).x = true := by
  refine ⟨by decide!, by decide!, by decide!⟩

/-- Claim C6, counterexample: on doubles the fitted rectangle does not keep
the ratio exactly. For a 100x300 image in the box `(0, 0, 200, 80)` the width
is `26.666666666666664` and `width * 300` is `7999.999999999999`, not
`height * 100 = 8000`; for a 1x5 image in the box `(0, 0, 3, 6)`
`width / height` is `0.20000000000000004`, not `1 / 5 = 0.2`. -/
theorem embed_keeps_aspect_counterexample :
    (F64.embedImageWithAspectRatio ⟨100, 300⟩ 0 0 200 80).width
      = .finite false 7505999378950826 (-48) ∧
    (F64.embedImageWithAspectRatio ⟨100, 300⟩ 0 0 200 80).width * 300
      ≠ (F64.embedImageWithAspectRatio ⟨100, 300⟩ 0 0 200 80).height * 100 ∧
    (F64.embedImageWithAspectRatio ⟨1, 5⟩ 0 0 3 6).width
        / (F64.embedImageWithAspectRatio ⟨1, 5⟩ 0 0 3 6).height
      = .finite false 7205759403792795 (-55) ∧
    (1 : F64) / 5 = .finite false 7205759403792794 (-55) ∧
    (F64.embedImageWithAspectRatio ⟨1, 5⟩ 0 0 3 6).width
        / (F64.embedImageWithAspectRatio ⟨1, 5⟩ 0 0 3 6).height
      ≠ (1 : F64) / 5 := by
  refine ⟨by decide!, by decide!, by decide!, by decide!, by decide!⟩

/-- Claim C7, counterexample: on doubles the margins are not equal. For a
100x300 image in the box `(0, 0, 200, 80)` the left margin `x - boxX` is
`86.66666666666667` and the right margin `(boxX + boxWidth) - (x + width)` is
`86.66666666666666`. -/
theorem embed_centred_counterexample :
    (F64.embedImageWithAspectRatio ⟨100, 300⟩ 0 0 200 80).x - 0
      = .finite false 6098624495397547 (-46) ∧
    ((0 : F64) + 200) - ((F64.embedImageWithAspectRatio ⟨100, 300⟩ 0 0 200 80).x
        + (F64.embedImageWithAspectRatio ⟨100, 300⟩ 0 0 200 80).width)
      = .finite false 6098624495397546 (-46) ∧
    (F64.embedImageWithAspectRatio ⟨100, 300⟩ 0 0 200 80).x - 0
      ≠ ((0 : F64) + 200) - ((F64.embedImageWithAspectRatio ⟨100, 300⟩ 0 0 200 80).x
        + (F64.embedImageWithAspectRatio ⟨100, 300⟩ 0 0 200 80).width) := by
  refine ⟨by decide!, by decide!, by decide!⟩

/-- Claim C8, counterexample: on doubles the returned rectangle is not the
largest of the image's ratio that fits. For a 100x300 image in the box
`(0, 0, 200, 80)` the returned width is `26.666666666666664`, below `80/3`,
and the rectangle of width `80/3` and height `80` has the ratio `100/300`,
fits the box and is wider. -/
theorem embed_touches_and_largest_counterexample :
    F64.embedImageWithAspectRatio ⟨100, 300⟩ 0 0 200 80
      = ⟨.finite false 6098624495397547 (-46), .finite false 0 0,
         .finite false 7505999378950826 (-48), 80⟩ ∧
    ∃ w' h' : ℚ, 0 < h' ∧ w' / h' = 100 / 300 ∧
      F64.toRat (F64.embedImageWithAspectRatio ⟨100, 300⟩ 0 0 200 80).width < w' ∧
      w' ≤ 200 ∧ h' ≤ 80 := by
  have h : F64.embedImageWithAspectRatio ⟨100, 300⟩ 0 0 200 80
      = ⟨.finite false 6098624495397547 (-46), .finite false 0 0,
         .finite false 7505999378950826 (-48), 80⟩ := by decide!
  refine ⟨h, 80 / 3, 80, by norm_num, by norm_num, ?_, by norm_num, by norm_num⟩
  rw [h]
  simp only [F64.toRat]
  norm_num

end BoloSign
